import Mathlib

/-!
# mem_pool.c: a shallow embedding and its checked properties

The C file keeps a process-wide registry (`pool_store`, `pool_store_size`,
`pool_store_capacity`) of pool managers and exposes `mem_init`, `mem_free`,
`mem_pool_open`, `mem_pool_close`, `mem_new_alloc`, `mem_del_alloc` and
`mem_inspect_pool`; its static functions resize the three arrays and keep the gap index
in order.

Conventions of the embedding
* a pointer is `Option Nat`: `none` is `NULL`, `some a` is the address `a`;
* a pointer into a manager's node heap (`node_pt`) is `Option Nat` too: the index of the
  node in `node_heap`, so `new_pmgr->node_heap` (the address of element 0) is `some 0`;
* the arrays `node_heap` and `gap_ix` are the lists of their elements;
* the static globals and the pool managers living on the C heap form `State`;
* the results of `malloc`/`calloc` are inputs of the functions that call them;
* `unsigned` arithmetic is `Nat` arithmetic modulo `2 ^ 32`;
* `float` arithmetic is IEEE 754 binary32 with rounding to nearest, ties to even, computed
  on exact fractions of natural numbers;
* a call either returns, or is stopped by a failed `assert`, or runs into undefined
  behaviour (a `NULL` dereference, a read or write outside an array): `Outcome`.
-/

set_option linter.unusedVariables false

namespace MemPool

/-! ## Constants -/

def MEM_POOL_STORE_INIT_CAPACITY : Nat := 20
def MEM_POOL_STORE_EXPAND_FACTOR : Nat := 2
def MEM_NODE_HEAP_INIT_CAPACITY : Nat := 40
def MEM_NODE_HEAP_EXPAND_FACTOR : Nat := 2
def MEM_GAP_IX_INIT_CAPACITY : Nat := 40
def MEM_GAP_IX_EXPAND_FACTOR : Nat := 2

/-- Width of `unsigned`: arithmetic on `unsigned` values is taken modulo this number. -/
def UINT_MOD : Nat := 2 ^ 32

/-! ## Type declarations -/

/-- Modelled from the spec: the enumeration `alloc_status` of mem_pool.h, which is not
among the sources; its members are the status values mem_pool.c returns. -/
inductive alloc_status where
  | ALLOC_OK
  | ALLOC_FAIL
  | ALLOC_NOT_FREED
  | ALLOC_CALLED_AGAIN
  deriving DecidableEq, Repr

/-- Modelled from the spec: the enumeration `alloc_policy` of mem_pool.h, which is not
among the sources (spec section 6: the policy is one of FIRST_FIT, BEST_FIT). -/
inductive alloc_policy where
  | FIRST_FIT
  | BEST_FIT
  deriving DecidableEq, Repr

/-- Modelled from the spec: the structure `pool_t` of mem_pool.h, which is not among the
sources; the fields are the ones mem_pool_open assigns through `new_pmgr->pool`. -/
structure pool_t where
  mem : Option Nat
  policy : alloc_policy
  total_size : Nat
  alloc_size : Nat
  num_allocs : Nat
  num_gaps : Nat
  deriving DecidableEq, Repr

/-- Modelled from the spec: the structure `pool_segment_t` of mem_pool.h, which is not
among the sources (spec 4.6: a segment is a pair of a size and an allocated flag). -/
structure pool_segment_t where
  size : Nat
  allocated : Nat
  deriving DecidableEq, Repr

/-- The structure `alloc_t`: the start address and the size of one extent. -/
structure alloc_t where
  mem : Option Nat
  size : Nat
  deriving DecidableEq, Repr

/-- The structure `node_t`; `next` and `prev` are indices into the node heap. -/
structure node_t where
  alloc_record : alloc_t
  used : Nat
  allocated : Nat
  next : Option Nat
  prev : Option Nat
  deriving DecidableEq, Repr

/-- The structure `gap_t`; `node` is an index into the node heap. -/
structure gap_t where
  size : Nat
  node : Option Nat
  deriving DecidableEq, Repr

/-- The structure `pool_mgr_t`. -/
structure pool_mgr_t where
  pool : pool_t
  node_heap : List node_t
  total_nodes : Nat
  used_nodes : Nat
  gap_ix : List gap_t
  gap_ix_capacity : Nat
  deriving DecidableEq, Repr

/-- A node as `calloc` leaves it: every byte zero. -/
def node_zero : node_t :=
  { alloc_record := { mem := none, size := 0 }, used := 0, allocated := 0,
    next := none, prev := none }

/-- A gap-index entry as `calloc` leaves it: every byte zero. -/
def gap_zero : gap_t := { size := 0, node := none }

/-! ## Static global variables -/

/-- The three static globals of mem_pool.c together with the pool managers on the C heap.
`pool_store` is `none` when the pointer is `NULL`, otherwise the array it points to; an
array element is the address of a pool manager or `none` for `NULL`. `heap` maps the
address of a live pool manager to its contents (the first pair with the address counts). -/
structure State where
  pool_store : Option (List (Option Nat))
  pool_store_size : Nat
  pool_store_capacity : Nat
  heap : List (Nat × pool_mgr_t)
  deriving DecidableEq, Repr

/-- The state at program start: `pool_store = NULL`, size and capacity 0, no managers. -/
def State.initial : State :=
  { pool_store := none, pool_store_size := 0, pool_store_capacity := 0, heap := [] }

/-- The pool manager a pool handle points to, if any. -/
def State.mgr (st : State) (pool : Option Nat) : Option pool_mgr_t :=
  match pool with
  | none => none
  | some a => st.heap.lookup a

/-- How a call ends. -/
inductive Outcome (α : Type) where
  /-- The call returns this value. -/
  | ok : α → Outcome α
  /-- A failed `assert` stopped the program. -/
  | aborted : Outcome α
  /-- Undefined behaviour: a `NULL` dereference or an access outside an array. -/
  | undefined : Outcome α
  deriving DecidableEq, Repr

/-! ## User-facing functions -/

/-- The function `mem_init`. `calloc_ok` tells whether its `calloc` call returns memory.
The result of `calloc` is not checked: the status is ALLOC_OK either way. -/
def mem_init (st : State) (calloc_ok : Bool) : alloc_status × State :=
  match st.pool_store with
  | none =>
    (alloc_status.ALLOC_OK,
      { st with
        pool_store :=
          if calloc_ok then some (List.replicate MEM_POOL_STORE_INIT_CAPACITY none) else none
        pool_store_capacity := MEM_POOL_STORE_INIT_CAPACITY })
  | some _ => (alloc_status.ALLOC_CALLED_AGAIN, st)

/-- The loop of `mem_free`: `for (i = 0; i < pool_store_size; i++) if (pool_store[i] != NULL)
return ALLOC_NOT_FREED;`, started at index `i` with `n` iterations left. The result is
`ok true` when a non-NULL entry is met, `ok false` when the loop runs to its end, and
`undefined` when `pool_store[i]` lies outside the array. -/
def mem_free_scan (store : List (Option Nat)) : Nat → Nat → Outcome Bool
  | _, 0 => Outcome.ok false
  | i, n + 1 =>
    match store[i]? with
    | none => Outcome.undefined
    | some (some _) => Outcome.ok true
    | some none => mem_free_scan store (i + 1) n

/-- The function `mem_free`. -/
def mem_free (st : State) : Outcome (alloc_status × State) :=
  match st.pool_store with
  | none => Outcome.ok (alloc_status.ALLOC_CALLED_AGAIN, st)
  | some store =>
    match mem_free_scan store 0 st.pool_store_size with
    | Outcome.undefined => Outcome.undefined
    | Outcome.aborted => Outcome.aborted
    | Outcome.ok true => Outcome.ok (alloc_status.ALLOC_NOT_FREED, st)
    | Outcome.ok false =>
      Outcome.ok (alloc_status.ALLOC_OK,
        { st with pool_store := none, pool_store_size := 0, pool_store_capacity := 0 })

/-- Results of the four allocations of `mem_pool_open`, in the order of the calls:
the address `calloc` returns for the pool manager, the address `malloc` returns for the
pool memory, and whether the `calloc` calls for the node heap and for the gap index
return memory. -/
structure OpenAllocs where
  new_pmgr : Option Nat
  new_mem : Option Nat
  new_nheap : Bool
  new_gapix : Bool
  deriving DecidableEq, Repr

/-- The slot search of `mem_pool_open`: `int i = 0; while (pool_store[i] != NULL) ++i;`,
over the rest of the array from index `i` on. `none` means that the loop leaves the
array (it reads `pool_store` past its last element). -/
def find_empty_slot : List (Option Nat) → Nat → Option Nat
  | [], _ => none
  | none :: _, i => some i
  | some _ :: rest, i => find_empty_slot rest (i + 1)

/-- The pool manager `mem_pool_open` builds once all four allocations have succeeded
(lines 164-169 and 202-217 of mem_pool.c). -/
def new_pool_mgr (size : Nat) (policy : alloc_policy) (new_mem : Nat) : pool_mgr_t :=
  { pool :=
      { mem := some new_mem, policy := policy, total_size := size,
        num_allocs := 0, num_gaps := 1, alloc_size := 0 }
    node_heap :=
      (List.replicate MEM_NODE_HEAP_INIT_CAPACITY node_zero).set 0
        { alloc_record := { mem := some new_mem, size := size }, used := 1, allocated := 0,
          next := none, prev := none }
    total_nodes := MEM_NODE_HEAP_INIT_CAPACITY
    used_nodes := 1
    gap_ix :=
      (List.replicate MEM_GAP_IX_INIT_CAPACITY gap_zero).set 0 { size := size, node := some 0 }
    gap_ix_capacity := MEM_GAP_IX_INIT_CAPACITY }

/-- The function `mem_pool_open`. `ndebug` tells whether the file is compiled with NDEBUG,
that is whether the `assert` calls are compiled out. The call to `_mem_resize_pool_store`
is commented out in the source and so is absent here. When the gap-index allocation
fails the source frees everything, sets `new_pmgr = NULL` and goes on to
`new_pmgr->node_heap = new_nheap`: a `NULL` dereference. -/
def mem_pool_open (st : State) (size : Nat) (policy : alloc_policy) (ndebug : Bool)
    (env : OpenAllocs) : Outcome (Option Nat × State) :=
  match st.pool_store with
  | none => Outcome.ok (none, st)
  | some store =>
    match env.new_pmgr with
    | none => if ndebug then Outcome.ok (none, st) else Outcome.aborted
    | some pmgr =>
      match env.new_mem with
      | none => if ndebug then Outcome.ok (none, st) else Outcome.aborted
      | some new_mem =>
        if env.new_nheap = false then
          (if ndebug then Outcome.ok (none, st) else Outcome.aborted)
        else if env.new_gapix = false then
          (if ndebug then Outcome.undefined else Outcome.aborted)
        else
          match find_empty_slot store 0 with
          | none => Outcome.undefined
          | some i =>
            Outcome.ok (some pmgr,
              { st with
                pool_store := some (store.set i (some pmgr))
                pool_store_size := (st.pool_store_size + 1) % UINT_MOD
                heap := (pmgr, new_pool_mgr size policy new_mem) :: st.heap })

/-- The function `mem_pool_close`: its body is `return ALLOC_FAIL;`. -/
def mem_pool_close (st : State) (pool : Option Nat) : alloc_status × State :=
  (alloc_status.ALLOC_FAIL, st)

/-- The function `mem_new_alloc`: its body is `return NULL;`. -/
def mem_new_alloc (st : State) (pool : Option Nat) (size : Nat) : Option Nat × State :=
  (none, st)

/-- The function `mem_del_alloc`: its body is `return ALLOC_FAIL;`. `alloc` is the pointer
to the allocation record, that is to its node. -/
def mem_del_alloc (st : State) (pool : Option Nat) (alloc : Option Nat) :
    alloc_status × State :=
  (alloc_status.ALLOC_FAIL, st)

/-- The function `mem_inspect_pool`: its body is empty. `segments` and `num_segments` are
the caller's variables the two out-parameters point to; the result gives the state and
the two variables after the call. -/
def mem_inspect_pool (st : State) (pool : Option Nat)
    (segments : Option (List pool_segment_t)) (num_segments : Nat) :
    State × Option (List pool_segment_t) × Nat :=
  (st, segments, num_segments)

/-! ## Well-formed registries and pool invariants -/

/-- Well-formed registry: when the pool store exists it has `pool_store_capacity`
elements, every manager in it has been counted in `pool_store_size`, and the count does
not exceed the capacity, which is an `unsigned` value. -/
def State.wf (st : State) : Prop :=
  match st.pool_store with
  | none => True
  | some store =>
    store.length = st.pool_store_capacity ∧
    store.countP (fun e => e.isSome) ≤ st.pool_store_size ∧
    st.pool_store_size ≤ st.pool_store_capacity ∧
    st.pool_store_capacity < UINT_MOD

instance (st : State) : Decidable st.wf := by
  unfold State.wf
  cases st.pool_store <;> infer_instance

/-- Slot `i` is the first empty slot of the pool store. -/
def first_empty_slot (store : List (Option Nat)) (i : Nat) : Prop :=
  store[i]? = some none ∧ ∀ j, j < i → ∃ p, store[j]? = some (some p)

/-- The record pointer `alloc` points to a used, allocated node of the manager. -/
def matches_live_alloc (m : pool_mgr_t) (alloc : Option Nat) : Bool :=
  match alloc with
  | none => false
  | some i =>
    match m.node_heap[i]? with
    | none => false
    | some nd => nd.used != 0 && nd.allocated != 0

/-- Some used gap node of the manager has at least `size` bytes. -/
def has_gap_of_size (m : pool_mgr_t) (size : Nat) : Bool :=
  m.node_heap.any (fun nd => nd.used != 0 && nd.allocated == 0 && decide (size ≤ nd.alloc_record.size))

/-- The walk from node `i` along `next`, over at most `fuel` nodes; `none` when an index
leaves the node heap or the walk does not end within `fuel` nodes. -/
def node_chain (heap : List node_t) : Nat → Nat → Option (List Nat)
  | 0, _ => none
  | fuel + 1, i =>
    match heap[i]? with
    | none => none
    | some nd =>
      match nd.next with
      | none => some [i]
      | some j => (node_chain heap fuel j).map (fun c => i :: c)

/-- Node `i` exists and is used. -/
def is_used (m : pool_mgr_t) (i : Nat) : Bool :=
  match m.node_heap[i]? with
  | none => false
  | some nd => nd.used != 0

/-- Node `i` exists, is used and is not allocated: a gap. -/
def is_gap (m : pool_mgr_t) (i : Nat) : Bool :=
  match m.node_heap[i]? with
  | none => false
  | some nd => nd.used != 0 && nd.allocated == 0

/-- Offset of a node's extent from the start of the pool memory. -/
def node_offset (m : pool_mgr_t) (nd : node_t) : Option Nat :=
  match m.pool.mem, nd.alloc_record.mem with
  | some base, some a => if base ≤ a then some (a - base) else none
  | _, _ => none

/-- The extents of the nodes of the chain lie one after the other from offset `start`
and end at `total_size`. -/
def tiles (m : pool_mgr_t) : Nat → List Nat → Bool
  | start, [] => start == m.pool.total_size
  | start, i :: rest =>
    match m.node_heap[i]? with
    | none => false
    | some nd => node_offset m nd == some start && tiles m (start + nd.alloc_record.size) rest

/-- Invariant 1: the walk from node 0 along `next` ends, visits used nodes only, visits
every used node, and the extents of its nodes tile `[0, total_size)` in that order. -/
def inv_partition (m : pool_mgr_t) : Bool :=
  match node_chain m.node_heap m.node_heap.length 0 with
  | none => false
  | some c =>
    c.all (is_used m) &&
    (List.range m.node_heap.length).all (fun i => !is_used m i || c.contains i) &&
    tiles m 0 c

/-- Invariant 2: `num_gaps` is the number of used unallocated nodes and the number of
populated gap-index entries (entries whose node pointer is not NULL). -/
def inv_gap_count (m : pool_mgr_t) : Bool :=
  m.pool.num_gaps == m.node_heap.countP (fun nd => nd.used != 0 && nd.allocated == 0) &&
  m.pool.num_gaps == m.gap_ix.countP (fun g => g.node.isSome)

/-- Address of the extent a gap-index entry points to (0 when it points nowhere). -/
def gap_addr (m : pool_mgr_t) (g : gap_t) : Nat :=
  match g.node with
  | none => 0
  | some i =>
    match m.node_heap[i]? with
    | none => 0
    | some nd => nd.alloc_record.mem.getD 0

/-- Order of the gap index: ascending size, ties by ascending address. -/
def gap_le (m : pool_mgr_t) (a b : gap_t) : Bool :=
  decide (a.size < b.size) || (a.size == b.size && decide (gap_addr m a ≤ gap_addr m b))

/-- Each entry of the list is in order with the one after it. -/
def gaps_sorted (m : pool_mgr_t) : List gap_t → Bool
  | [] => true
  | [_] => true
  | a :: b :: rest => gap_le m a b && gaps_sorted m (b :: rest)

/-- Invariant 3: the first `num_gaps` gap-index entries are sorted. -/
def inv_sorted (m : pool_mgr_t) : Bool :=
  gaps_sorted m (m.gap_ix.take m.pool.num_gaps)

/-- No two neighbours in the chain are both gaps. -/
def no_adjacent_gaps (m : pool_mgr_t) : List Nat → Bool
  | [] => true
  | [_] => true
  | i :: j :: rest => !(is_gap m i && is_gap m j) && no_adjacent_gaps m (j :: rest)

/-- Invariant 4: no two adjacent used nodes are both gaps. -/
def inv_coalesced (m : pool_mgr_t) : Bool :=
  match node_chain m.node_heap m.node_heap.length 0 with
  | none => false
  | some c => no_adjacent_gaps m c

/-- Invariant 5: the counters stay within the capacities. -/
def inv_capacity (m : pool_mgr_t) : Bool :=
  decide (m.used_nodes ≤ m.total_nodes) && decide (m.pool.num_gaps ≤ m.gap_ix_capacity)

/-- Invariant 6: `alloc_size` is the sum of the sizes of the used allocated nodes. -/
def inv_alloc_size (m : pool_mgr_t) : Bool :=
  m.pool.alloc_size ==
    (m.node_heap.map (fun nd =>
      if nd.used != 0 && nd.allocated != 0 then nd.alloc_record.size else 0)).sum

/-- The six data-model invariants of a pool manager. -/
def pool_invariants (m : pool_mgr_t) : Prop :=
  inv_partition m = true ∧ inv_gap_count m = true ∧ inv_sorted m = true ∧
  inv_coalesced m = true ∧ inv_capacity m = true ∧ inv_alloc_size m = true

instance (m : pool_mgr_t) : Decidable (pool_invariants m) := by
  unfold pool_invariants
  infer_instance

/-- A call of one of the four pool operations on a given pool. -/
inductive PoolCall where
  | new_alloc (size : Nat)
  | del_alloc (alloc : Option Nat)
  | inspect (segments : Option (List pool_segment_t)) (num_segments : Nat)
  | close
  deriving DecidableEq, Repr

/-- The state after one call on the pool. -/
def run_call (st : State) (pool : Option Nat) : PoolCall → State
  | PoolCall.new_alloc size => (mem_new_alloc st pool size).2
  | PoolCall.del_alloc alloc => (mem_del_alloc st pool alloc).2
  | PoolCall.inspect segments num_segments => (mem_inspect_pool st pool segments num_segments).1
  | PoolCall.close => (mem_pool_close st pool).2

/-- The state after a sequence of calls on the pool, first call first. -/
def run_calls (st : State) (pool : Option Nat) : List PoolCall → State
  | [] => st
  | c :: rest => run_calls (run_call st pool c) pool rest

/-! ## Scenario used by the concrete checks -/

/-- The registry after a successful `mem_init` at program start. -/
def st_init : State := (mem_init State.initial true).2

/-- All four allocations of `mem_pool_open` succeed: the manager lands at address 1000
and the pool memory at address 5000. -/
def allocs_ok : OpenAllocs :=
  { new_pmgr := some 1000, new_mem := some 5000, new_nheap := true, new_gapix := true }

/-- The registry after `mem_init` and `mem_pool_open(10, FIRST_FIT)`. -/
def st_open10 : State :=
  { pool_store := some ((List.replicate 20 none).set 0 (some 1000))
    pool_store_size := 1
    pool_store_capacity := 20
    heap := [(1000, new_pool_mgr 10 alloc_policy.FIRST_FIT 5000)] }

/-! ## Sequences of calls of the user-facing functions -/

/-- A call of one of the seven user-facing functions, with its arguments and with the
results of the allocations it makes. -/
inductive ApiCall where
  | init (calloc_ok : Bool)
  | free
  | pool_open (size : Nat) (policy : alloc_policy) (ndebug : Bool) (env : OpenAllocs)
  | pool_close (pool : Option Nat)
  | new_alloc (pool : Option Nat) (size : Nat)
  | del_alloc (pool : Option Nat) (alloc : Option Nat)
  | inspect (pool : Option Nat) (segments : Option (List pool_segment_t)) (num_segments : Nat)
  deriving DecidableEq, Repr

/-- The state part of an outcome. -/
def Outcome.state {α : Type} : Outcome (α × State) → Outcome State
  | Outcome.ok r => Outcome.ok r.2
  | Outcome.aborted => Outcome.aborted
  | Outcome.undefined => Outcome.undefined

/-- The state after one call. -/
def api_call (st : State) : ApiCall → Outcome State
  | ApiCall.init calloc_ok => Outcome.ok (mem_init st calloc_ok).2
  | ApiCall.free => (mem_free st).state
  | ApiCall.pool_open size policy ndebug env => (mem_pool_open st size policy ndebug env).state
  | ApiCall.pool_close pool => Outcome.ok (mem_pool_close st pool).2
  | ApiCall.new_alloc pool size => Outcome.ok (mem_new_alloc st pool size).2
  | ApiCall.del_alloc pool alloc => Outcome.ok (mem_del_alloc st pool alloc).2
  | ApiCall.inspect pool segments num_segments =>
    Outcome.ok (mem_inspect_pool st pool segments num_segments).1

/-- The state after a sequence of calls, first call first; the run stops at the first
call that does not return. -/
def api_run (st : State) : List ApiCall → Outcome State
  | [] => Outcome.ok st
  | c :: rest =>
    match api_call st c with
    | Outcome.ok st' => api_run st' rest
    | Outcome.aborted => Outcome.aborted
    | Outcome.undefined => Outcome.undefined

/-- The call is a `mem_free` that returns ALLOC_OK in this state. -/
def is_successful_free (st : State) : ApiCall → Bool
  | ApiCall.free =>
    match mem_free st with
    | Outcome.ok (alloc_status.ALLOC_OK, _) => true
    | _ => false
  | _ => false

/-- No call of the sequence, run from this state, is a `mem_free` returning ALLOC_OK. -/
def no_successful_free (st : State) : List ApiCall → Bool
  | [] => true
  | c :: rest =>
    !is_successful_free st c &&
      match api_call st c with
      | Outcome.ok st' => no_successful_free st' rest
      | _ => true

/-- States the program can be in: those a sequence of returning calls reaches from the
state at program start. -/
def Reachable (st : State) : Prop :=
  ∃ calls, api_run State.initial calls = Outcome.ok st

/-- The bookkeeping the calls maintain: without a pool store `pool_store_size` is 0; with
one, the store has 20 elements, `pool_store_capacity` is 20 and `pool_store_size` is the
number of non-NULL elements. -/
def State.counted (st : State) : Prop :=
  match st.pool_store with
  | none => st.pool_store_size = 0
  | some store =>
    store.length = 20 ∧ st.pool_store_capacity = 20 ∧
    store.countP (fun e => e.isSome) = st.pool_store_size

/-! ## Static functions -/

/-- The constant `MEM_POOL_STORE_FILL_FACTOR = 0.75`, as the fraction 3/4 (numerator,
denominator); 0.75 is a binary32 value, so the constant is exact. -/
def MEM_POOL_STORE_FILL_FACTOR : Nat × Nat := (3, 4)

/-- Position of the highest set bit of `n`, found in at most `fuel` halvings. -/
def floor_log2_aux : Nat → Nat → Nat
  | 0, _ => 0
  | fuel + 1, n => if n < 2 then 0 else floor_log2_aux fuel (n / 2) + 1

/-- Position of the highest set bit of `n`, for `n` below `2 ^ 64`: the binary exponent of
`n`. -/
def floor_log2 (n : Nat) : Nat := floor_log2_aux 64 n

/-- The integer nearest to `a / b`, the even one of the two when `a / b` lies half way:
the rounding mode of binary32 arithmetic. -/
def round_half_even (a b : Nat) : Nat :=
  if b < 2 * (a % b) ∨ (2 * (a % b) = b ∧ (a / b) % 2 = 1) then a / b + 1 else a / b

/-- The value of `(float) n` for an `unsigned` value `n`: a binary32 number has 24
significant bits, so `n` below `2 ^ 24` is kept and a larger `n` is rounded to 24
significant bits. The value is an integer again. -/
def float_of_unsigned (n : Nat) : Nat :=
  if n < 2 ^ 24 then n
  else round_half_even n (2 ^ (floor_log2 n - 23)) * 2 ^ (floor_log2 n - 23)

/-- The binary32 quotient `a / b` of two positive binary32 numbers with integer values,
as a fraction (numerator, denominator). `a * 2 ^ (24 + floor_log2 b)` over
`b * 2 ^ floor_log2 a` is the quotient of the two significands scaled by `2 ^ 24`; it is
rounded to an integer of 24 bits and scaled back. -/
def float_div (a b : Nat) : Nat × Nat :=
  if a * 2 ^ (24 + floor_log2 b) < 2 ^ 24 * (b * 2 ^ floor_log2 a) then
    (round_half_even (a * 2 ^ (24 + floor_log2 b)) (b * 2 ^ floor_log2 a) * 2 ^ floor_log2 a,
      2 ^ (floor_log2 b + 24))
  else
    (round_half_even (a * 2 ^ (24 + floor_log2 b)) (2 * (b * 2 ^ floor_log2 a))
        * 2 ^ (floor_log2 a + 1),
      2 ^ (floor_log2 b + 24))

/-- The test `((float) pool_store_size / pool_store_capacity) > MEM_POOL_STORE_FILL_FACTOR`
of `_mem_resize_pool_store` in binary32 arithmetic: both operands are converted to
`float`, the quotient is rounded to `float`, and the comparison is exact. A division by
zero gives infinity for a positive dividend and a NaN for zero, and a NaN compares false. -/
def fill_exceeded (size capacity : Nat) : Bool :=
  if float_of_unsigned capacity = 0 then decide (0 < float_of_unsigned size)
  else if float_of_unsigned size = 0 then false
  else
    decide (MEM_POOL_STORE_FILL_FACTOR.1
        * (float_div (float_of_unsigned size) (float_of_unsigned capacity)).2
      < MEM_POOL_STORE_FILL_FACTOR.2
        * (float_div (float_of_unsigned size) (float_of_unsigned capacity)).1)

/-- The function `_mem_resize_pool_store`. `realloc_result` is the result of its `realloc`
call: `none` when `realloc` returns NULL, otherwise the contents `realloc` leaves in the
elements it adds (element `i` of the new array is the old element `i` when there is one).
The result of `realloc` is assigned to `pool_store` unchecked. -/
def _mem_resize_pool_store (st : State) (realloc_result : Option (Nat → Option Nat)) :
    alloc_status × State :=
  if fill_exceeded st.pool_store_size st.pool_store_capacity = true then
    (alloc_status.ALLOC_OK,
      { st with
        pool_store :=
          match realloc_result with
          | none => none
          | some added =>
            some ((List.range
                ((st.pool_store_capacity * MEM_POOL_STORE_EXPAND_FACTOR) % UINT_MOD)).map
              (fun i =>
                match (st.pool_store.getD [])[i]? with
                | some e => e
                | none => added i))
        pool_store_capacity :=
          (st.pool_store_capacity * MEM_POOL_STORE_EXPAND_FACTOR) % UINT_MOD })
  else (alloc_status.ALLOC_OK, st)

/-- The function `_mem_resize_node_heap`: its body is `return ALLOC_FAIL;`. -/
def _mem_resize_node_heap (pool_mgr : pool_mgr_t) : alloc_status × pool_mgr_t :=
  (alloc_status.ALLOC_FAIL, pool_mgr)

/-- The function `_mem_resize_gap_ix`: its body is `return ALLOC_FAIL;`. -/
def _mem_resize_gap_ix (pool_mgr : pool_mgr_t) : alloc_status × pool_mgr_t :=
  (alloc_status.ALLOC_FAIL, pool_mgr)

/-- The comparison `p < q` of two `char *` values by address (NULL is address 0). -/
def ptr_lt (p q : Option Nat) : Bool := decide (p.getD 0 < q.getD 0)

/-- The gap index with the entries at `i - 1` and `i` exchanged through `tmp_gap`
(lines 429-431 of mem_pool.c); `cur` is `gap_ix[i]` and `prev` is `gap_ix[i-1]`. -/
def swap_gaps (pool_mgr : pool_mgr_t) (i : Nat) (cur prev : gap_t) : pool_mgr_t :=
  { pool_mgr with gap_ix := (pool_mgr.gap_ix.set i prev).set (i - 1) cur }

/-- The body of the loop of `_mem_sort_gap_ix` at index `i`. The swap test is
`gap_ix[i].size < gap_ix[i-1].size || (gap_ix[i].size == gap_ix[i-1].size &&
gap_ix[i].node->alloc_record.mem < gap_ix[i].node->alloc_record.mem)`: both sides of the
address comparison read the node of entry `i`, and they are read only when the sizes
are equal. Index 0 stands for a body that reads `gap_ix[-1]`. -/
def sort_step (pool_mgr : pool_mgr_t) : Nat → Outcome pool_mgr_t
  | 0 => Outcome.undefined
  | j + 1 =>
    match pool_mgr.gap_ix[j + 1]?, pool_mgr.gap_ix[j]? with
    | some cur, some prev =>
      if cur.size < prev.size then Outcome.ok (swap_gaps pool_mgr (j + 1) cur prev)
      else if cur.size = prev.size then
        match cur.node with
        | none => Outcome.undefined
        | some k =>
          match pool_mgr.node_heap[k]? with
          | none => Outcome.undefined
          | some nd =>
            if ptr_lt nd.alloc_record.mem nd.alloc_record.mem = true then
              Outcome.ok (swap_gaps pool_mgr (j + 1) cur prev)
            else Outcome.ok pool_mgr
      else Outcome.ok pool_mgr
    | _, _ => Outcome.undefined

/-- The loop `for (int i = ...; --i; i > 0) body` of `_mem_sort_gap_ix` from the point where
`--i` has just produced the argument: the loop ends when that value is 0, otherwise the
body runs at that index, `i > 0` is evaluated for nothing, and `--i` comes again. -/
def sort_pass (pool_mgr : pool_mgr_t) : Nat → Outcome pool_mgr_t
  | 0 => Outcome.ok pool_mgr
  | i + 1 =>
    match sort_step pool_mgr (i + 1) with
    | Outcome.ok m => sort_pass m i
    | Outcome.aborted => Outcome.aborted
    | Outcome.undefined => Outcome.undefined

/-- The function `_mem_sort_gap_ix`. `int i = num_gaps - 1` and the first `--i` give
`num_gaps - 2`. For `num_gaps = 1` that is -1 and for `num_gaps = 0` it is -2 (the
`unsigned` value `UINT_MAX` converted to `int`, minus one): not zero, so the body runs and
reads `gap_ix` at a negative index. The same happens when `num_gaps - 1` does not fit an
`int`. -/
def _mem_sort_gap_ix (pool_mgr : pool_mgr_t) : Outcome (alloc_status × pool_mgr_t) :=
  if pool_mgr.pool.num_gaps < 2 ∨ 2 ^ 31 < pool_mgr.pool.num_gaps then Outcome.undefined
  else
    match sort_pass pool_mgr (pool_mgr.pool.num_gaps - 2) with
    | Outcome.ok m => Outcome.ok (alloc_status.ALLOC_OK, m)
    | Outcome.aborted => Outcome.aborted
    | Outcome.undefined => Outcome.undefined

/-- The function `_mem_add_to_gap_ix`. `ndebug` tells whether `assert` is compiled out.
`num_gaps` is taken to be an `unsigned` field of `pool_t`. -/
def _mem_add_to_gap_ix (pool_mgr : pool_mgr_t) (size : Nat) (node : Option Nat)
    (ndebug : Bool) : Outcome (alloc_status × pool_mgr_t) :=
  if (_mem_resize_gap_ix pool_mgr).1 ≠ alloc_status.ALLOC_OK then
    (if ndebug then Outcome.ok (alloc_status.ALLOC_FAIL, (_mem_resize_gap_ix pool_mgr).2)
     else Outcome.aborted)
  else if (_mem_resize_gap_ix pool_mgr).2.pool.num_gaps
      < (_mem_resize_gap_ix pool_mgr).2.gap_ix.length then
    match _mem_sort_gap_ix
        { (_mem_resize_gap_ix pool_mgr).2 with
          gap_ix :=
            (_mem_resize_gap_ix pool_mgr).2.gap_ix.set
              (_mem_resize_gap_ix pool_mgr).2.pool.num_gaps { size := size, node := node }
          pool :=
            { (_mem_resize_gap_ix pool_mgr).2.pool with
              num_gaps := ((_mem_resize_gap_ix pool_mgr).2.pool.num_gaps + 1) % UINT_MOD } } with
    | Outcome.ok (result, m) =>
      if result ≠ alloc_status.ALLOC_OK then Outcome.ok (alloc_status.ALLOC_FAIL, m)
      else Outcome.ok (result, m)
    | Outcome.aborted => Outcome.aborted
    | Outcome.undefined => Outcome.undefined
  else Outcome.undefined

/-! ## Well-formed gap indexes and further scenarios -/

/-- The node pointer of a gap-index entry points to a node of the heap. -/
def node_valid (m : pool_mgr_t) (g : gap_t) : Bool :=
  match g.node with
  | none => false
  | some k => (m.node_heap[k]?).isSome

/-- Well-formed gap index: the array holds at least `num_gaps` entries, `num_gaps - 1` fits
an `int`, and every one of the first `num_gaps` entries points to a node of the heap. -/
def gap_ix_wf (m : pool_mgr_t) : Prop :=
  m.pool.num_gaps ≤ m.gap_ix.length ∧ m.pool.num_gaps ≤ 2 ^ 31 ∧
  ∀ g, g ∈ m.gap_ix.take m.pool.num_gaps → node_valid m g = true

instance (m : pool_mgr_t) : Decidable (gap_ix_wf m) := by
  unfold gap_ix_wf
  infer_instance

/-- The manager `m'` is `m` with its first `n` gap-index entries rearranged and nothing
else changed. -/
def gap_ix_permuted (n : Nat) (m m' : pool_mgr_t) : Prop :=
  m'.pool = m.pool ∧ m'.node_heap = m.node_heap ∧ m'.total_nodes = m.total_nodes ∧
  m'.used_nodes = m.used_nodes ∧ m'.gap_ix_capacity = m.gap_ix_capacity ∧
  m'.gap_ix.length = m.gap_ix.length ∧
  (m'.gap_ix.take n).Perm (m.gap_ix.take n) ∧ m'.gap_ix.drop n = m.gap_ix.drop n

/-- The first `num_gaps` entries are strictly ascending by size. -/
def strictly_ascending (m : pool_mgr_t) : Prop :=
  (m.gap_ix.take m.pool.num_gaps).Pairwise (fun a b => a.size < b.size)

instance (m : pool_mgr_t) : Decidable (strictly_ascending m) := by
  unfold strictly_ascending
  infer_instance

/-- The calls `mem_pool_open(1, FIRST_FIT)`, `n` times, every allocation succeeding: the
manager of call `k` lands at address `1000 + k`, its pool memory at `5000 + k`. -/
def open_calls (n : Nat) : List ApiCall :=
  (List.range n).map (fun k =>
    ApiCall.pool_open 1 alloc_policy.FIRST_FIT true
      { new_pmgr := some (1000 + k), new_mem := some (5000 + k), new_nheap := true,
        new_gapix := true })

/-- A used node with the given address, size and allocated flag, not linked. -/
def mk_node (mem size allocated : Nat) : node_t :=
  { alloc_record := { mem := some mem, size := size }, used := 1, allocated := allocated,
    next := none, prev := none }

/-- A manager over a pool of 10 bytes at address 5000 laid out as gap(5), allocation(2),
gap(3), whose gap index holds the gap of 5 and, just appended behind it, the gap of 3
(`num_gaps = 2`): the state in which `_mem_add_to_gap_ix` calls `_mem_sort_gap_ix`. -/
def mgr_appended : pool_mgr_t :=
  { pool :=
      { mem := some 5000, policy := alloc_policy.FIRST_FIT, total_size := 10,
        alloc_size := 2, num_allocs := 1, num_gaps := 2 }
    node_heap :=
      [{ mk_node 5000 5 0 with next := some 1 },
       { mk_node 5005 2 1 with next := some 2, prev := some 0 },
       { mk_node 5007 3 0 with prev := some 1 }]
    total_nodes := 3
    used_nodes := 3
    gap_ix := [{ size := 5, node := some 0 }, { size := 3, node := some 2 }]
    gap_ix_capacity := 2 }

/-- A manager whose gap index holds three entries, the last one just appended:
(1, node at 5000), (5, node at 5003) and (3, node at 5010). -/
def mgr_appended3 : pool_mgr_t :=
  { pool :=
      { mem := some 5000, policy := alloc_policy.FIRST_FIT, total_size := 13,
        alloc_size := 4, num_allocs := 2, num_gaps := 3 }
    node_heap :=
      [{ mk_node 5000 1 0 with next := some 1 },
       { mk_node 5001 2 1 with next := some 2, prev := some 0 },
       { mk_node 5003 5 0 with next := some 3, prev := some 1 },
       { mk_node 5008 2 1 with next := some 4, prev := some 2 },
       { mk_node 5010 3 0 with prev := some 3 }]
    total_nodes := 5
    used_nodes := 5
    gap_ix :=
      [{ size := 1, node := some 0 }, { size := 5, node := some 2 },
       { size := 3, node := some 4 }]
    gap_ix_capacity := 3 }

/-- The manager `mgr_appended3` with the gap index [(5, node 2), (1, node 0), (3, node 4)]. -/
def mgr_swap : pool_mgr_t :=
  { mgr_appended3 with
    gap_ix :=
      [{ size := 5, node := some 2 }, { size := 1, node := some 0 },
       { size := 3, node := some 4 }] }

/-- The manager `mgr_appended3` with the gap index [(1, node 0), (3, node 4), (5, node 2)]. -/
def mgr_sorted : pool_mgr_t :=
  { mgr_appended3 with
    gap_ix :=
      [{ size := 1, node := some 0 }, { size := 3, node := some 4 },
       { size := 5, node := some 2 }] }

/-- A manager whose gap index is [(5, node at address 200), (5, node at address 100),
(9, node at address 300)] with `num_gaps = 3`; the pool starts at address 100. -/
def mgr_tie : pool_mgr_t :=
  { pool :=
      { mem := some 100, policy := alloc_policy.BEST_FIT, total_size := 209,
        alloc_size := 190, num_allocs := 2, num_gaps := 3 }
    node_heap :=
      [{ mk_node 100 5 0 with next := some 1 },
       { mk_node 105 95 1 with next := some 2, prev := some 0 },
       { mk_node 200 5 0 with next := some 3, prev := some 1 },
       { mk_node 205 95 1 with next := some 4, prev := some 2 },
       { mk_node 300 9 0 with prev := some 3 }]
    total_nodes := 5
    used_nodes := 5
    gap_ix :=
      [{ size := 5, node := some 2 }, { size := 5, node := some 0 },
       { size := 9, node := some 4 }]
    gap_ix_capacity := 3 }

/-- A well-formed registry of capacity 20 filled above three quarters: 16 open pools. -/
def st_sixteen : State :=
  { pool_store := some ((List.range 16).map (fun k => some (1000 + k)) ++ List.replicate 4 none)
    pool_store_size := 16
    pool_store_capacity := 20
    heap := [] }

/-- A registry with the given size and capacity and a pool store of `capacity` NULL
entries. -/
def st_sized (size capacity : Nat) : State :=
  { pool_store := some (List.replicate capacity none)
    pool_store_size := size
    pool_store_capacity := capacity
    heap := [] }

/-- The registry after `mem_init` and 20 calls `mem_pool_open(1, FIRST_FIT)`: all 20 slots
of the pool store are taken. -/
def st_full : State :=
  { pool_store := some ((List.range 20).map (fun k => some (1000 + k)))
    pool_store_size := 20
    pool_store_capacity := 20
    heap :=
      ((List.range 20).map (fun k =>
        (1000 + k, new_pool_mgr 1 alloc_policy.FIRST_FIT (5000 + k)))).reverse }

/-! ## Helper lemmas -/

theorem mem_free_scan_all_null (store : List (Option Nat)) :
    ∀ n i, (∀ j, j < n → store[i + j]? = some none) →
      mem_free_scan store i n = Outcome.ok false := by
  intro n
  induction n with
  | zero => intro i _; rfl
  | succ n ih =>
    intro i h
    have h0 : store[i]? = some none := by simpa using h 0 (Nat.succ_pos n)
    have hrest : ∀ j, j < n → store[i + 1 + j]? = some none := by
      intro j hj
      have := h (j + 1) (Nat.succ_lt_succ hj)
      rwa [show i + (j + 1) = i + 1 + j by omega] at this
    simp only [mem_free_scan, h0]
    exact ih (i + 1) hrest

theorem mem_free_scan_some_open (store : List (Option Nat)) :
    ∀ n i, i + n ≤ store.length → (∃ j p, j < n ∧ store[i + j]? = some (some p)) →
      mem_free_scan store i n = Outcome.ok true := by
  intro n
  induction n with
  | zero =>
    intro i _ h
    obtain ⟨j, _, hj, _⟩ := h
    exact absurd hj (Nat.not_lt_zero j)
  | succ n ih =>
    intro i hlen h
    obtain ⟨j, p, hj, hp⟩ := h
    have hi : i < store.length := by omega
    cases hsi : store[i]? with
    | none =>
      rw [List.getElem?_eq_none_iff] at hsi
      omega
    | some e =>
      cases e with
      | some q => simp [mem_free_scan, hsi]
      | none =>
        simp only [mem_free_scan, hsi]
        apply ih (i + 1) (by omega)
        cases j with
        | zero => simp [hsi] at hp
        | succ k =>
          refine ⟨k, p, by omega, ?_⟩
          rwa [show i + (k + 1) = i + 1 + k by omega] at hp

theorem find_empty_slot_spec :
    ∀ (store : List (Option Nat)) (k : Nat),
      store.countP (fun e => e.isSome) < store.length →
      ∃ i, find_empty_slot store k = some (k + i) ∧ i < store.length ∧
        first_empty_slot store i := by
  intro store
  induction store with
  | nil => intro k h; simp at h
  | cons e rest ih =>
    intro k h
    cases e with
    | none =>
      refine ⟨0, by simp [find_empty_slot], by simp, by simp [first_empty_slot]⟩
    | some q =>
      have h2 : rest.countP (fun e => e.isSome) < rest.length := by
        simpa [List.countP_cons] using h
      obtain ⟨i, hi, hlt, hnull, hbefore⟩ := ih (k + 1) h2
      refine ⟨i + 1, ?_, by simpa using hlt, ?_, ?_⟩
      · simp only [find_empty_slot, hi]
        congr 1
        omega
      · simpa using hnull
      · intro j hj
        cases j with
        | zero => exact ⟨q, by simp⟩
        | succ j =>
          obtain ⟨p, hp⟩ := hbefore j (by omega)
          exact ⟨p, by simpa using hp⟩

/-! ## Registry: mem_init and mem_free -/

/-- C9 (registry teardown): on a well-formed registry `mem_free` returns
ALLOC_CALLED_AGAIN and changes nothing when the pool store is not initialised; returns
ALLOC_NOT_FREED and changes nothing when some entry `pool_store[i]` with
`i < pool_store_size` is non-NULL; and otherwise returns ALLOC_OK with `pool_store` reset
to NULL, `pool_store_size = 0` and `pool_store_capacity = 0` (the pool managers on the
heap are not touched), after which `mem_init` returns ALLOC_OK again. -/
theorem mem_free_teardown (st : State) (hwf : st.wf) :
    (st.pool_store = none → mem_free st = Outcome.ok (alloc_status.ALLOC_CALLED_AGAIN, st)) ∧
    (∀ store, st.pool_store = some store →
      (∃ i p, i < st.pool_store_size ∧ store[i]? = some (some p)) →
      mem_free st = Outcome.ok (alloc_status.ALLOC_NOT_FREED, st)) ∧
    (∀ store, st.pool_store = some store →
      (¬ ∃ i p, i < st.pool_store_size ∧ store[i]? = some (some p)) →
      ∃ st', mem_free st = Outcome.ok (alloc_status.ALLOC_OK, st') ∧
        st'.pool_store = none ∧ st'.pool_store_size = 0 ∧ st'.pool_store_capacity = 0 ∧
        st'.heap = st.heap ∧
        ∀ calloc_ok, (mem_init st' calloc_ok).1 = alloc_status.ALLOC_OK) := by
  refine ⟨?_, ?_, ?_⟩
  · intro h
    simp [mem_free, h]
  · intro store hs hex
    have hw : store.length = st.pool_store_capacity ∧
        store.countP (fun e => e.isSome) ≤ st.pool_store_size ∧
        st.pool_store_size ≤ st.pool_store_capacity ∧
        st.pool_store_capacity < UINT_MOD := by
      simpa [State.wf, hs] using hwf
    have hscan : mem_free_scan store 0 st.pool_store_size = Outcome.ok true := by
      apply mem_free_scan_some_open
      · omega
      · obtain ⟨i, p, hi, hp⟩ := hex
        exact ⟨i, p, hi, by simpa using hp⟩
    simp [mem_free, hs, hscan]
  · intro store hs hno
    have hw : store.length = st.pool_store_capacity ∧
        store.countP (fun e => e.isSome) ≤ st.pool_store_size ∧
        st.pool_store_size ≤ st.pool_store_capacity ∧
        st.pool_store_capacity < UINT_MOD := by
      simpa [State.wf, hs] using hwf
    have hscan : mem_free_scan store 0 st.pool_store_size = Outcome.ok false := by
      apply mem_free_scan_all_null
      intro j hj
      have hjl : j < store.length := by omega
      cases hsj : store[j]? with
      | none =>
        rw [List.getElem?_eq_none_iff] at hsj
        omega
      | some e =>
        cases e with
        | none => simpa using hsj
        | some p => exact absurd ⟨j, p, hj, hsj⟩ hno
    refine ⟨{ st with pool_store := none, pool_store_size := 0, pool_store_capacity := 0 },
      by simp only [mem_free, hs, hscan], rfl, rfl, rfl, rfl, ?_⟩
    intro calloc_ok
    simp [mem_init]

/-- Witness for C9, one registry per case: the registry at program start, the registry
holding one open pool, and the freshly initialised registry. -/
theorem mem_free_teardown_witness :
    mem_free State.initial = Outcome.ok (alloc_status.ALLOC_CALLED_AGAIN, State.initial) ∧
    mem_free st_open10 = Outcome.ok (alloc_status.ALLOC_NOT_FREED, st_open10) ∧
    (∃ st', mem_free st_init = Outcome.ok (alloc_status.ALLOC_OK, st') ∧
        st'.pool_store = none ∧ st'.pool_store_size = 0 ∧ st'.pool_store_capacity = 0 ∧
        st'.heap = st_init.heap ∧
        ∀ calloc_ok, (mem_init st' calloc_ok).1 = alloc_status.ALLOC_OK) :=
  ⟨(mem_free_teardown State.initial (by simp [State.wf, State.initial])).1 rfl,
   (mem_free_teardown st_open10 (by decide)).2.1 _ rfl ⟨0, 1000, by decide, by decide⟩,
   (mem_free_teardown st_init (by decide)).2.2 _ rfl (by
      rintro ⟨i, p, hi, _⟩
      exact absurd hi (Nat.not_lt_zero i))⟩

theorem mem_free_keeps_store (st : State) (store : List (Option Nat))
    (hs : st.pool_store = some store) (hno : is_successful_free st ApiCall.free = false)
    (st' : State) (h : api_call st ApiCall.free = Outcome.ok st') : st' = st := by
  simp only [api_call, mem_free, hs] at h
  simp only [is_successful_free, mem_free, hs] at hno
  cases hscan : mem_free_scan store 0 st.pool_store_size with
  | aborted => simp [hscan, Outcome.state] at h
  | undefined => simp [hscan, Outcome.state] at h
  | ok b =>
    cases b with
    | true =>
      simp only [hscan, Outcome.state, Outcome.ok.injEq] at h
      exact h.symm
    | false => simp [hscan] at hno

theorem api_call_keeps_store (st st' : State) (c : ApiCall)
    (hs : st.pool_store ≠ none) (hno : is_successful_free st c = false)
    (h : api_call st c = Outcome.ok st') : st'.pool_store ≠ none := by
  obtain ⟨store, hstore⟩ := Option.ne_none_iff_exists'.mp hs
  cases c with
  | init calloc_ok =>
    simp only [api_call, mem_init, hstore, Outcome.ok.injEq] at h
    rw [← h]; exact hs
  | free =>
    rw [mem_free_keeps_store st store hstore hno st' h]; exact hs
  | pool_open size policy ndebug env =>
    simp only [api_call, mem_pool_open, hstore] at h
    split at h
    · split at h <;> simp [Outcome.state] at h
      rw [← h]; exact hs
    · split at h
      · split at h <;> simp [Outcome.state] at h
        rw [← h]; exact hs
      · split at h
        · split at h <;> simp [Outcome.state] at h
          rw [← h]; exact hs
        · split at h
          · split at h <;> simp [Outcome.state] at h
          · split at h
            · simp [Outcome.state] at h
            · simp only [Outcome.state, Outcome.ok.injEq] at h
              rw [← h]; simp
  | pool_close pool =>
    simp only [api_call, mem_pool_close, Outcome.ok.injEq] at h
    rw [← h]; exact hs
  | new_alloc pool size =>
    simp only [api_call, mem_new_alloc, Outcome.ok.injEq] at h
    rw [← h]; exact hs
  | del_alloc pool alloc =>
    simp only [api_call, mem_del_alloc, Outcome.ok.injEq] at h
    rw [← h]; exact hs
  | inspect pool segments num_segments =>
    simp only [api_call, mem_inspect_pool, Outcome.ok.injEq] at h
    rw [← h]; exact hs

theorem api_run_keeps_store :
    ∀ (calls : List ApiCall) (st st' : State), st.pool_store ≠ none →
      no_successful_free st calls = true → api_run st calls = Outcome.ok st' →
      st'.pool_store ≠ none := by
  intro calls
  induction calls with
  | nil =>
    intro st st' hs _ h
    simp only [api_run, Outcome.ok.injEq] at h
    rw [← h]; exact hs
  | cons c rest ih =>
    intro st st' hs hno h
    simp only [no_successful_free, Bool.and_eq_true, Bool.not_eq_true'] at hno
    cases hc : api_call st c with
    | aborted => simp [api_run, hc] at h
    | undefined => simp [api_run, hc] at h
    | ok st1 =>
      simp only [api_run, hc] at h
      have hno2 : no_successful_free st1 rest = true := by simpa [hc] using hno.2
      exact ih st1 st' (api_call_keeps_store st st1 c hs hno.1 hc) hno2 h

/-- C10, counterexample (registry init): at program start, when the `calloc` of `mem_init`
returns NULL, `mem_init` still returns ALLOC_OK but there is no pool store afterwards
(`pool_store` stays NULL instead of pointing to 20 NULL entries), and a second `mem_init`
with no `mem_free` in between returns ALLOC_OK, not ALLOC_CALLED_AGAIN, and changes
`pool_store`. -/
theorem mem_init_calloc_null_counterexample :
    (mem_init State.initial false).1 = alloc_status.ALLOC_OK ∧
    (mem_init State.initial false).2.pool_store = none ∧
    (mem_init State.initial false).2.pool_store
      ≠ some (List.replicate MEM_POOL_STORE_INIT_CAPACITY none) ∧
    (mem_init (mem_init State.initial false).2 true).1 = alloc_status.ALLOC_OK ∧
    (mem_init (mem_init State.initial false).2 true).1 ≠ alloc_status.ALLOC_CALLED_AGAIN ∧
    (mem_init (mem_init State.initial false).2 true).2.pool_store
      ≠ (mem_init State.initial false).2.pool_store := by
  decide

/-- C10 as amended (registry init): `mem_init` on an uninitialised registry returns
ALLOC_OK, sets `pool_store_capacity` to 20 and leaves `pool_store_size` and the pool
managers alone; when its `calloc` succeeds `pool_store` becomes an array of 20 NULL
entries, and when it fails `pool_store` stays NULL. Once `pool_store` is non-NULL, after
any run of calls none of which is a `mem_free` returning ALLOC_OK, `mem_init` returns
ALLOC_CALLED_AGAIN and leaves the whole state (`pool_store`, `pool_store_size`,
`pool_store_capacity`) unchanged. -/
theorem mem_init_spec (st : State) :
    (st.pool_store = none → ∀ calloc_ok,
      (mem_init st calloc_ok).1 = alloc_status.ALLOC_OK ∧
      (mem_init st calloc_ok).2.pool_store_capacity = 20 ∧
      (mem_init st calloc_ok).2.pool_store_size = st.pool_store_size ∧
      (mem_init st calloc_ok).2.heap = st.heap ∧
      (calloc_ok = true →
        (mem_init st calloc_ok).2.pool_store = some (List.replicate 20 none)) ∧
      (calloc_ok = false → (mem_init st calloc_ok).2.pool_store = none)) ∧
    (st.pool_store ≠ none → ∀ calls st', no_successful_free st calls = true →
      api_run st calls = Outcome.ok st' →
      ∀ calloc_ok, mem_init st' calloc_ok = (alloc_status.ALLOC_CALLED_AGAIN, st')) := by
  constructor
  · intro h calloc_ok
    refine ⟨by simp [mem_init, h], by simp [mem_init, h, MEM_POOL_STORE_INIT_CAPACITY],
      by simp [mem_init, h], by simp [mem_init, h], ?_, ?_⟩
    · intro hc
      simp [mem_init, h, hc, MEM_POOL_STORE_INIT_CAPACITY]
    · intro hc
      simp [mem_init, h, hc]
  · intro h calls st' hno hrun calloc_ok
    have hs := api_run_keeps_store calls st st' h hno hrun
    obtain ⟨store, hstore⟩ := Option.ne_none_iff_exists'.mp hs
    simp [mem_init, hstore]

/-- Witness for C10 as amended: `mem_init` at program start with a successful `calloc`,
and `mem_init` again after the run `mem_init; mem_pool_open(10, FIRST_FIT); mem_free`
(the `mem_free` returns ALLOC_NOT_FREED), started from the initialised registry. -/
theorem mem_init_spec_witness :
    ((mem_init State.initial true).1 = alloc_status.ALLOC_OK ∧
      (mem_init State.initial true).2.pool_store_capacity = 20 ∧
      (mem_init State.initial true).2.pool_store_size = State.initial.pool_store_size ∧
      (mem_init State.initial true).2.heap = State.initial.heap ∧
      (true = true →
        (mem_init State.initial true).2.pool_store = some (List.replicate 20 none)) ∧
      (true = false → (mem_init State.initial true).2.pool_store = none)) ∧
    (∀ calloc_ok, mem_init st_open10 calloc_ok = (alloc_status.ALLOC_CALLED_AGAIN, st_open10)) :=
  ⟨(mem_init_spec State.initial).1 rfl true,
   (mem_init_spec st_init).2 (by decide)
     [ApiCall.init true, ApiCall.pool_open 10 alloc_policy.FIRST_FIT true allocs_ok,
      ApiCall.free]
     st_open10 (by decide) (by decide)⟩

/-! ## Pools: mem_pool_open -/

/-- C1 (open): on a well-formed, initialised registry of capacity 20 holding fewer than
20 pools, for every size (so for every size > 0) and every policy, when the four
allocations succeed (manager at `pmgr`, pool memory at `new_mem`), `mem_pool_open`
returns the non-NULL pool `pmgr`, whose manager has total_size = size, the given policy,
num_allocs = 0, num_gaps = 1, alloc_size = 0, used_nodes = 1, total_nodes = 40 and
gap_ix_capacity = 40; node_heap[0] is a used, unallocated node of `size` bytes starting
at the buffer base with no prev and no next; gap_ix[0] = (size, node_heap[0]); and the
manager is stored in the first empty slot of the pool store, with pool_store_size
incremented by one and nothing else in the registry changed. -/
theorem mem_pool_open_success (st : State) (store : List (Option Nat)) (size : Nat)
    (policy : alloc_policy) (ndebug : Bool) (pmgr new_mem : Nat)
    (hwf : st.wf) (hs : st.pool_store = some store)
    (hcap : st.pool_store_capacity = MEM_POOL_STORE_INIT_CAPACITY)
    (hfew : st.pool_store_size < 20) :
    ∃ i st' m,
      mem_pool_open st size policy ndebug
        { new_pmgr := some pmgr, new_mem := some new_mem, new_nheap := true,
          new_gapix := true } = Outcome.ok (some pmgr, st') ∧
      st'.mgr (some pmgr) = some m ∧
      m.pool.mem = some new_mem ∧ m.pool.total_size = size ∧ m.pool.policy = policy ∧
      m.pool.num_allocs = 0 ∧ m.pool.num_gaps = 1 ∧ m.pool.alloc_size = 0 ∧
      m.used_nodes = 1 ∧ m.total_nodes = 40 ∧ m.gap_ix_capacity = 40 ∧
      m.node_heap.length = 40 ∧ m.gap_ix.length = 40 ∧
      m.node_heap[0]? = some
        { alloc_record := { mem := m.pool.mem, size := size }, used := 1, allocated := 0,
          next := none, prev := none } ∧
      m.gap_ix[0]? = some { size := size, node := some 0 } ∧
      i < store.length ∧ first_empty_slot store i ∧
      st'.pool_store = some (store.set i (some pmgr)) ∧
      st'.pool_store_size = st.pool_store_size + 1 ∧
      st'.pool_store_capacity = st.pool_store_capacity := by
  have hw : store.length = st.pool_store_capacity ∧
      store.countP (fun e => e.isSome) ≤ st.pool_store_size ∧
      st.pool_store_size ≤ st.pool_store_capacity ∧
      st.pool_store_capacity < UINT_MOD := by
    simpa [State.wf, hs] using hwf
  have hlen : store.length = 20 := by rw [hw.1, hcap]; rfl
  have hroom : store.countP (fun e => e.isSome) < store.length := by omega
  obtain ⟨i, hfind, hi, hfirst⟩ := find_empty_slot_spec store 0 hroom
  rw [Nat.zero_add] at hfind
  have hmod : (st.pool_store_size + 1) % UINT_MOD = st.pool_store_size + 1 := by
    apply Nat.mod_eq_of_lt
    simp only [UINT_MOD]
    omega
  refine ⟨i,
    { st with
      pool_store := some (store.set i (some pmgr))
      pool_store_size := st.pool_store_size + 1
      heap := (pmgr, new_pool_mgr size policy new_mem) :: st.heap },
    new_pool_mgr size policy new_mem, ?_, ?_, rfl, rfl, rfl, rfl, rfl, rfl, rfl, rfl, rfl,
    ?_, ?_, rfl, rfl, hi, hfirst, rfl, rfl, rfl⟩
  · simp [mem_pool_open, hs, hfind, hmod]
  · simp [State.mgr, List.lookup]
  · simp [new_pool_mgr, MEM_NODE_HEAP_INIT_CAPACITY]
  · simp [new_pool_mgr, MEM_GAP_IX_INIT_CAPACITY]

/-- Witness for C1: `mem_pool_open(10, FIRST_FIT)` on the freshly initialised registry. -/
theorem mem_pool_open_success_witness :
    ∃ i st' m,
      mem_pool_open st_init 10 alloc_policy.FIRST_FIT true
        { new_pmgr := some 1000, new_mem := some 5000, new_nheap := true,
          new_gapix := true } = Outcome.ok (some 1000, st') ∧
      st'.mgr (some 1000) = some m ∧
      m.pool.mem = some 5000 ∧ m.pool.total_size = 10 ∧
      m.pool.policy = alloc_policy.FIRST_FIT ∧
      m.pool.num_allocs = 0 ∧ m.pool.num_gaps = 1 ∧ m.pool.alloc_size = 0 ∧
      m.used_nodes = 1 ∧ m.total_nodes = 40 ∧ m.gap_ix_capacity = 40 ∧
      m.node_heap.length = 40 ∧ m.gap_ix.length = 40 ∧
      m.node_heap[0]? = some
        { alloc_record := { mem := m.pool.mem, size := 10 }, used := 1, allocated := 0,
          next := none, prev := none } ∧
      m.gap_ix[0]? = some { size := 10, node := some 0 } ∧
      i < (List.replicate 20 (none : Option Nat)).length ∧
      first_empty_slot (List.replicate 20 none) i ∧
      st'.pool_store = some ((List.replicate 20 none).set i (some 1000)) ∧
      st'.pool_store_size = st_init.pool_store_size + 1 ∧
      st'.pool_store_capacity = st_init.pool_store_capacity :=
  mem_pool_open_success st_init (List.replicate 20 none) 10 alloc_policy.FIRST_FIT true
    1000 5000 (by decide) rfl rfl (by decide)

theorem node_heap_new (size : Nat) (policy : alloc_policy) (new_mem : Nat) :
    (new_pool_mgr size policy new_mem).node_heap =
      { alloc_record := { mem := some new_mem, size := size }, used := 1, allocated := 0,
        next := none, prev := none } :: List.replicate 39 node_zero := rfl

theorem gap_ix_new (size : Nat) (policy : alloc_policy) (new_mem : Nat) :
    (new_pool_mgr size policy new_mem).gap_ix =
      { size := size, node := some 0 } :: List.replicate 39 gap_zero := rfl

theorem inv_partition_new (size : Nat) (policy : alloc_policy) (new_mem : Nat) :
    inv_partition (new_pool_mgr size policy new_mem) = true := by
  have hchain : node_chain (new_pool_mgr size policy new_mem).node_heap
      (new_pool_mgr size policy new_mem).node_heap.length 0 = some [0] := rfl
  have hused : [0].all (is_used (new_pool_mgr size policy new_mem)) = true := rfl
  have hall : (List.range (new_pool_mgr size policy new_mem).node_heap.length).all
      (fun i => !is_used (new_pool_mgr size policy new_mem) i || [0].contains i) = true := rfl
  have htiles : tiles (new_pool_mgr size policy new_mem) 0 [0] = true := by
    simp only [tiles, node_heap_new, List.getElem?_cons_zero]
    simp [node_offset, new_pool_mgr]
  simp only [inv_partition, hchain, hused, hall, htiles, Bool.and_self]

theorem inv_gap_count_new (size : Nat) (policy : alloc_policy) (new_mem : Nat) :
    inv_gap_count (new_pool_mgr size policy new_mem) = true := rfl

theorem inv_sorted_new (size : Nat) (policy : alloc_policy) (new_mem : Nat) :
    inv_sorted (new_pool_mgr size policy new_mem) = true := rfl

theorem inv_coalesced_new (size : Nat) (policy : alloc_policy) (new_mem : Nat) :
    inv_coalesced (new_pool_mgr size policy new_mem) = true := rfl

theorem inv_capacity_new (size : Nat) (policy : alloc_policy) (new_mem : Nat) :
    inv_capacity (new_pool_mgr size policy new_mem) = true := rfl

theorem inv_alloc_size_new (size : Nat) (policy : alloc_policy) (new_mem : Nat) :
    inv_alloc_size (new_pool_mgr size policy new_mem) = true := rfl

theorem new_pool_mgr_invariants (size : Nat) (policy : alloc_policy) (new_mem : Nat) :
    pool_invariants (new_pool_mgr size policy new_mem) :=
  ⟨inv_partition_new size policy new_mem, inv_gap_count_new size policy new_mem,
   inv_sorted_new size policy new_mem, inv_coalesced_new size policy new_mem,
   inv_capacity_new size policy new_mem, inv_alloc_size_new size policy new_mem⟩

theorem run_calls_id (pool : Option Nat) :
    ∀ (calls : List PoolCall) (st : State), run_calls st pool calls = st := by
  intro calls
  induction calls with
  | nil => intro st; rfl
  | cons c rest ih =>
    intro st
    cases c <;> exact ih st

theorem mem_pool_open_ok_mgr (st st' : State) (size : Nat) (policy : alloc_policy)
    (ndebug : Bool) (env : OpenAllocs) (pool : Nat)
    (h : mem_pool_open st size policy ndebug env = Outcome.ok (some pool, st')) :
    ∃ new_mem, env.new_mem = some new_mem ∧
      st'.mgr (some pool) = some (new_pool_mgr size policy new_mem) := by
  unfold mem_pool_open at h
  split at h
  · simp at h
  · split at h
    · split at h <;> simp at h
    · split at h
      · split at h <;> simp at h
      · rename_i new_mem hmem
        refine ⟨new_mem, hmem, ?_⟩
        split at h
        · split at h <;> simp at h
        · split at h
          · split at h <;> simp at h
          · split at h
            · simp at h
            · simp only [Outcome.ok.injEq, Prod.mk.injEq, Option.some.injEq] at h
              obtain ⟨hp, hst⟩ := h
              subst hp
              rw [← hst]
              simp [State.mgr, List.lookup]

/-! ## Pools: mem_new_alloc, mem_del_alloc, mem_inspect_pool, mem_pool_close -/

/-- C2 (allocation from a fresh pool), the code at the failing input: after `mem_init`
and `mem_pool_open(10, FIRST_FIT)`, `mem_new_alloc(pool, 5)` returns NULL and leaves the
state as it was, so that num_allocs is still 0, alloc_size still 0 and the single gap
still has all 10 bytes; the same holds for every state, pool and size, since the body of
`mem_new_alloc` is `return NULL;`. -/
theorem mem_new_alloc_fresh_pool_returns_null :
    mem_pool_open st_init 10 alloc_policy.FIRST_FIT true allocs_ok
      = Outcome.ok (some 1000, st_open10) ∧
    mem_new_alloc st_open10 (some 1000) 5 = (none, st_open10) ∧
    (∃ m, st_open10.mgr (some 1000) = some m ∧ m.pool.num_allocs = 0 ∧
      m.pool.alloc_size = 0 ∧ m.pool.num_gaps = 1 ∧
      m.gap_ix[0]? = some { size := 10, node := some 0 }) ∧
    (∀ st pool size, mem_new_alloc st pool size = (none, st)) :=
  ⟨rfl, rfl, ⟨new_pool_mgr 10 alloc_policy.FIRST_FIT 5000, rfl, rfl, rfl, rfl, rfl⟩,
    fun _ _ _ => rfl⟩

/-- C3 (round trip), the code at the failing input: after `mem_init` and
`mem_pool_open(10, FIRST_FIT)`, `mem_new_alloc(pool, 5)` returns the NULL record and
`mem_del_alloc(pool, record)` returns ALLOC_FAIL, not ALLOC_OK; the state stays the one
of the fresh pool throughout. -/
theorem alloc_then_free_fresh_pool_fails :
    mem_pool_open st_init 10 alloc_policy.FIRST_FIT true allocs_ok
      = Outcome.ok (some 1000, st_open10) ∧
    (mem_new_alloc st_open10 (some 1000) 5).1 = none ∧
    mem_del_alloc (mem_new_alloc st_open10 (some 1000) 5).2 (some 1000)
        (mem_new_alloc st_open10 (some 1000) 5).1
      = (alloc_status.ALLOC_FAIL, st_open10) ∧
    alloc_status.ALLOC_FAIL ≠ alloc_status.ALLOC_OK ∧
    (∀ st pool alloc, (mem_del_alloc st pool alloc).1 = alloc_status.ALLOC_FAIL) :=
  ⟨rfl, rfl, rfl, by decide, fun _ _ _ => rfl⟩

/-- C4 (free of an unknown or already freed record): for every state, every pool of it
and every record that does not point to a used allocated node of that pool's manager,
`mem_del_alloc` returns a status other than ALLOC_OK and leaves the state, hence the
manager with its counters, node heap and gap index, unchanged; and for every record a
second `mem_del_alloc` of the same record returns a status other than ALLOC_OK and
changes nothing either. -/
theorem mem_del_alloc_rejects_unmatched (st : State) (pool alloc : Option Nat) :
    (∀ m, st.mgr pool = some m → matches_live_alloc m alloc = false →
      (mem_del_alloc st pool alloc).1 ≠ alloc_status.ALLOC_OK ∧
      (mem_del_alloc st pool alloc).2 = st ∧
      (mem_del_alloc st pool alloc).2.mgr pool = some m) ∧
    ((mem_del_alloc (mem_del_alloc st pool alloc).2 pool alloc).1 ≠ alloc_status.ALLOC_OK ∧
      (mem_del_alloc (mem_del_alloc st pool alloc).2 pool alloc).2 = st) := by
  refine ⟨?_, ?_, rfl⟩
  · intro m hm _
    exact ⟨by simp [mem_del_alloc], rfl, hm⟩
  · simp [mem_del_alloc]

/-- Witness for C4: in the fresh pool of 10 bytes, node 0 is a gap, so a record pointing
to it matches no allocated node. -/
theorem mem_del_alloc_rejects_unmatched_witness :
    (mem_del_alloc st_open10 (some 1000) (some 0)).1 ≠ alloc_status.ALLOC_OK ∧
    (mem_del_alloc st_open10 (some 1000) (some 0)).2 = st_open10 ∧
    (mem_del_alloc st_open10 (some 1000) (some 0)).2.mgr (some 1000)
      = some (new_pool_mgr 10 alloc_policy.FIRST_FIT 5000) :=
  (mem_del_alloc_rejects_unmatched st_open10 (some 1000) (some 0)).1
    (new_pool_mgr 10 alloc_policy.FIRST_FIT 5000) rfl rfl

/-- C5 (data-model invariants): for every pool that `mem_pool_open` returns (for every
size, so for every size > 0) and every later sequence of `mem_new_alloc`,
`mem_del_alloc`, `mem_inspect_pool` and `mem_pool_close` calls on it, the pool's manager
is still there and satisfies the six invariants: the used nodes reached from
node_heap[0] along `next` tile [0, total_size); num_gaps is the number of used
unallocated nodes and of populated gap-index entries; the first num_gaps gap-index
entries are sorted by size, then address; no two adjacent used nodes are both gaps;
used_nodes <= total_nodes and num_gaps <= gap_ix_capacity; alloc_size is the sum of the
sizes of the used allocated nodes. -/
theorem pool_invariants_hold (st st' : State) (size : Nat) (policy : alloc_policy)
    (ndebug : Bool) (env : OpenAllocs) (pool : Nat)
    (hopen : mem_pool_open st size policy ndebug env = Outcome.ok (some pool, st'))
    (calls : List PoolCall) :
    ∃ m, (run_calls st' (some pool) calls).mgr (some pool) = some m ∧ pool_invariants m := by
  obtain ⟨new_mem, _, hm⟩ := mem_pool_open_ok_mgr st st' size policy ndebug env pool hopen
  rw [run_calls_id]
  exact ⟨_, hm, new_pool_mgr_invariants size policy new_mem⟩

/-- Witness for C5: the pool of 10 bytes opened on the fresh registry, followed by one
call of each of the four operations. -/
theorem pool_invariants_hold_witness :
    ∃ m, (run_calls st_open10 (some 1000)
        [PoolCall.new_alloc 5, PoolCall.del_alloc (some 0), PoolCall.inspect none 0,
         PoolCall.close]).mgr (some 1000) = some m ∧ pool_invariants m :=
  pool_invariants_hold st_init st_open10 10 alloc_policy.FIRST_FIT true allocs_ok 1000 rfl
    [PoolCall.new_alloc 5, PoolCall.del_alloc (some 0), PoolCall.inspect none 0,
     PoolCall.close]

/-- C6 (close guard), the code at the failing input: after `mem_init` and
`mem_pool_open(10, FIRST_FIT)` the pool is idle (num_allocs = 0, num_gaps = 1), yet
`mem_pool_close(pool)` returns ALLOC_FAIL and the manager stays in slot 0 of the pool
store; the same status comes back for every state and pool, since the body of
`mem_pool_close` is `return ALLOC_FAIL;`. -/
theorem mem_pool_close_idle_pool_fails :
    mem_pool_open st_init 10 alloc_policy.FIRST_FIT true allocs_ok
      = Outcome.ok (some 1000, st_open10) ∧
    (∃ m, st_open10.mgr (some 1000) = some m ∧ m.pool.num_allocs = 0 ∧
      m.pool.num_gaps = 1) ∧
    mem_pool_close st_open10 (some 1000) = (alloc_status.ALLOC_FAIL, st_open10) ∧
    (∃ store, (mem_pool_close st_open10 (some 1000)).2.pool_store = some store ∧
      store[0]? = some (some 1000)) ∧
    (∀ st pool, mem_pool_close st pool = (alloc_status.ALLOC_FAIL, st)) :=
  ⟨rfl, ⟨new_pool_mgr 10 alloc_policy.FIRST_FIT 5000, rfl, rfl, rfl⟩, rfl,
    ⟨(List.replicate 20 none).set 0 (some 1000), rfl, rfl⟩, fun _ _ => rfl⟩

/-- C7 (inspect), the code at the failing input: after `mem_init` and
`mem_pool_open(10, FIRST_FIT)` the manager has used_nodes = 1, and
`mem_inspect_pool(pool, &segments, &num_segments)` called with `segments = NULL` and
`num_segments = 0` leaves both variables as they were, instead of the one segment
(10, not allocated) and the count 1; for every state, pool and pair of variables the
call changes nothing, since the body of `mem_inspect_pool` is empty. -/
theorem mem_inspect_pool_writes_nothing :
    mem_pool_open st_init 10 alloc_policy.FIRST_FIT true allocs_ok
      = Outcome.ok (some 1000, st_open10) ∧
    (∃ m, st_open10.mgr (some 1000) = some m ∧ m.used_nodes = 1) ∧
    mem_inspect_pool st_open10 (some 1000) none 0 = (st_open10, none, 0) ∧
    (mem_inspect_pool st_open10 (some 1000) none 0).2.1
      ≠ some [{ size := 10, allocated := 0 }] ∧
    (mem_inspect_pool st_open10 (some 1000) none 0).2.2 ≠ 1 ∧
    (∀ st pool segments num_segments,
      mem_inspect_pool st pool segments num_segments = (st, segments, num_segments)) :=
  ⟨rfl, ⟨new_pool_mgr 10 alloc_policy.FIRST_FIT 5000, rfl, rfl⟩, rfl, by decide, by decide,
    fun _ _ _ _ => rfl⟩

/-- C8 (allocation failure is atomic): for every state, every pool of it and every
requested size such that the manager has num_gaps = 0 or no used gap node of at least
that size, `mem_new_alloc` returns NULL and leaves the state unchanged, hence the
manager with num_allocs, alloc_size, num_gaps, used_nodes, node heap and gap index. -/
theorem mem_new_alloc_failure_atomic (st : State) (pool : Option Nat) (size : Nat)
    (m : pool_mgr_t) (hm : st.mgr pool = some m)
    (hnogap : m.pool.num_gaps = 0 ∨ has_gap_of_size m size = false) :
    (mem_new_alloc st pool size).1 = none ∧
    (mem_new_alloc st pool size).2 = st ∧
    (mem_new_alloc st pool size).2.mgr pool = some m :=
  ⟨rfl, rfl, hm⟩

/-- Witness for C8: a request of 11 bytes on the fresh pool of 10 bytes. -/
theorem mem_new_alloc_failure_atomic_witness :
    (mem_new_alloc st_open10 (some 1000) 11).1 = none ∧
    (mem_new_alloc st_open10 (some 1000) 11).2 = st_open10 ∧
    (mem_new_alloc st_open10 (some 1000) 11).2.mgr (some 1000)
      = some (new_pool_mgr 10 alloc_policy.FIRST_FIT 5000) :=
  mem_new_alloc_failure_atomic st_open10 (some 1000) 11
    (new_pool_mgr 10 alloc_policy.FIRST_FIT 5000) rfl (Or.inr (by decide))

/-! ## Every reachable registry is well formed -/

theorem countP_set_empty_slot (p : Nat) :
    ∀ (store : List (Option Nat)) (i : Nat), store[i]? = some none →
      (store.set i (some p)).countP (fun e => e.isSome)
        = store.countP (fun e => e.isSome) + 1 := by
  intro store
  induction store with
  | nil => intro i h; simp at h
  | cons e rest ih =>
    intro i h
    cases i with
    | zero =>
      have he : e = none := by simpa using h
      subst he
      simp [List.countP_cons]
    | succ i =>
      have hrest : rest[i]? = some none := by simpa using h
      simp only [List.set_cons_succ, List.countP_cons, ih i hrest]
      omega

theorem counted_wf (st : State) (h : st.counted) : st.wf := by
  unfold State.counted at h
  unfold State.wf
  cases hs : st.pool_store with
  | none => trivial
  | some store =>
    simp only [hs] at h ⊢
    obtain ⟨hlen, hcap, hcount⟩ := h
    have hle := List.countP_le_length (fun e : Option Nat => e.isSome) (l := store)
    refine ⟨by omega, by omega, by omega, ?_⟩
    rw [hcap]
    decide

theorem api_call_counted (st st' : State) (c : ApiCall) (hc : st.counted)
    (h : api_call st c = Outcome.ok st') : st'.counted := by
  cases c with
  | init calloc_ok =>
    simp only [api_call, Outcome.ok.injEq] at h
    subst h
    unfold State.counted at hc
    cases hs : st.pool_store with
    | some store =>
      have : mem_init st calloc_ok = (alloc_status.ALLOC_CALLED_AGAIN, st) := by
        simp [mem_init, hs]
      rw [this]
      simpa [State.counted, hs] using hc
    | none =>
      simp only [hs] at hc
      cases calloc_ok <;>
        simp [mem_init, hs, State.counted, hc, MEM_POOL_STORE_INIT_CAPACITY]
  | free =>
    simp only [api_call, mem_free] at h
    cases hs : st.pool_store with
    | none =>
      simp only [hs, Outcome.state, Outcome.ok.injEq] at h
      subst h; exact hc
    | some store =>
      simp only [hs] at h
      cases hscan : mem_free_scan store 0 st.pool_store_size with
      | aborted => simp [hscan, Outcome.state] at h
      | undefined => simp [hscan, Outcome.state] at h
      | ok b =>
        cases b with
        | true =>
          simp only [hscan, Outcome.state, Outcome.ok.injEq] at h
          subst h; exact hc
        | false =>
          simp only [hscan, Outcome.state, Outcome.ok.injEq] at h
          subst h
          simp [State.counted]
  | pool_open size policy ndebug env =>
    simp only [api_call, mem_pool_open] at h
    cases hs : st.pool_store with
    | none =>
      simp only [hs, Outcome.state, Outcome.ok.injEq] at h
      subst h; exact hc
    | some store =>
      simp only [hs] at h
      have hcs : store.length = 20 ∧ st.pool_store_capacity = 20 ∧
          store.countP (fun e => e.isSome) = st.pool_store_size := by
        simpa [State.counted, hs] using hc
      split at h
      · split at h <;> simp [Outcome.state] at h
        subst h; exact hc
      · split at h
        · split at h <;> simp [Outcome.state] at h
          subst h; exact hc
        · split at h
          · split at h <;> simp [Outcome.state] at h
            subst h; exact hc
          · split at h
            · split at h <;> simp [Outcome.state] at h
            · cases hfind : find_empty_slot store 0 with
              | none => simp [hfind, Outcome.state] at h
              | some i =>
                have hle := List.countP_le_length (fun e : Option Nat => e.isSome) (l := store)
                by_cases hfull : store.countP (fun e => e.isSome) < store.length
                · obtain ⟨j, hj, _, hnull, _⟩ := find_empty_slot_spec store 0 hfull
                  rw [hfind, Nat.zero_add, Option.some.injEq] at hj
                  subst hj
                  simp only [hfind, Outcome.state, Outcome.ok.injEq] at h
                  subst h
                  have hmod : (st.pool_store_size + 1) % UINT_MOD = st.pool_store_size + 1 := by
                    apply Nat.mod_eq_of_lt
                    simp only [UINT_MOD]
                    omega
                  simp only [State.counted, List.length_set, hmod,
                    countP_set_empty_slot _ store i hnull]
                  omega
                · exfalso
                  have hall : ∀ (l : List (Option Nat)) (k : Nat),
                      l.countP (fun e => e.isSome) = l.length →
                      find_empty_slot l k = none := by
                    intro l
                    induction l with
                    | nil => intro k _; rfl
                    | cons e rest ih =>
                      intro k hk
                      have hr := List.countP_le_length (fun e : Option Nat => e.isSome) (l := rest)
                      cases e with
                      | none =>
                        simp [List.countP_cons] at hk
                        omega
                      | some q =>
                        simp only [find_empty_slot]
                        apply ih
                        simpa [List.countP_cons] using hk
                  rw [hall store 0 (by omega)] at hfind
                  simp at hfind
  | pool_close pool =>
    simp only [api_call, mem_pool_close, Outcome.ok.injEq] at h
    subst h; exact hc
  | new_alloc pool size =>
    simp only [api_call, mem_new_alloc, Outcome.ok.injEq] at h
    subst h; exact hc
  | del_alloc pool alloc =>
    simp only [api_call, mem_del_alloc, Outcome.ok.injEq] at h
    subst h; exact hc
  | inspect pool segments num_segments =>
    simp only [api_call, mem_inspect_pool, Outcome.ok.injEq] at h
    subst h; exact hc

theorem api_run_counted :
    ∀ (calls : List ApiCall) (st st' : State), st.counted →
      api_run st calls = Outcome.ok st' → st'.counted := by
  intro calls
  induction calls with
  | nil =>
    intro st st' hc h
    simp only [api_run, Outcome.ok.injEq] at h
    subst h; exact hc
  | cons c rest ih =>
    intro st st' hc h
    cases hcall : api_call st c with
    | aborted => simp [api_run, hcall] at h
    | undefined => simp [api_run, hcall] at h
    | ok st1 =>
      simp only [api_run, hcall] at h
      exact ih st1 st' (api_call_counted st st1 c hc hcall) h

/-- Every state the program can reach by returning calls is a well-formed registry: the
hypothesis `State.wf` of the theorems above holds wherever the functions can be called. -/
theorem reachable_wf (st : State) (h : Reachable st) : st.wf := by
  obtain ⟨calls, hrun⟩ := h
  exact counted_wf st (api_run_counted calls State.initial st rfl hrun)

/-! ## Growth of the pool store, of the node heap and of the gap index -/

/-- C11 (the registry grows), the code at the failing input: after `mem_init`, 20 calls
`mem_pool_open(1, FIRST_FIT)` return and fill the 20 slots of the pool store, whose
capacity is still 20 since the call of `_mem_resize_pool_store` is commented out; the
21st call finds no NULL slot and its loop `while (pool_store[i] != NULL) ++i;` reads
`pool_store[20]`, past the end of the array: undefined behaviour instead of a pool stored
below `pool_store_capacity`. The same holds for every size, policy and pair of
addresses. -/
theorem twenty_first_open_leaves_the_store :
    api_run st_init (open_calls 20) = Outcome.ok st_full ∧
    st_full.pool_store_size = 20 ∧ st_full.pool_store_capacity = 20 ∧
    mem_pool_open st_full 1 alloc_policy.FIRST_FIT true
      { new_pmgr := some 1020, new_mem := some 5020, new_nheap := true, new_gapix := true }
      = Outcome.undefined ∧
    api_run st_init (open_calls 21) = Outcome.undefined ∧
    (∀ size policy ndebug pmgr new_mem,
      mem_pool_open st_full size policy ndebug
        { new_pmgr := some pmgr, new_mem := some new_mem, new_nheap := true,
          new_gapix := true } = Outcome.undefined) :=
  ⟨by decide, rfl, rfl, by decide, by decide, fun _ _ _ _ _ => rfl⟩

/-- C12 (node-heap and gap-index growth), the code at the failing input: on the manager of
a fresh pool of 10 bytes `_mem_resize_node_heap` and `_mem_resize_gap_ix` return
ALLOC_FAIL, not ALLOC_OK; with 31 of 40 nodes used, or 31 of 40 gap entries
(31/40 > 0.75), they return ALLOC_FAIL too and `total_nodes` and `gap_ix_capacity` stay
40; for every manager both return ALLOC_FAIL and change nothing, since their bodies are
`return ALLOC_FAIL;`. -/
theorem resize_node_heap_and_gap_ix_fail :
    _mem_resize_node_heap (new_pool_mgr 10 alloc_policy.FIRST_FIT 5000)
      = (alloc_status.ALLOC_FAIL, new_pool_mgr 10 alloc_policy.FIRST_FIT 5000) ∧
    _mem_resize_gap_ix (new_pool_mgr 10 alloc_policy.FIRST_FIT 5000)
      = (alloc_status.ALLOC_FAIL, new_pool_mgr 10 alloc_policy.FIRST_FIT 5000) ∧
    (_mem_resize_node_heap
      { new_pool_mgr 10 alloc_policy.FIRST_FIT 5000 with used_nodes := 31 }).1
        = alloc_status.ALLOC_FAIL ∧
    (_mem_resize_node_heap
      { new_pool_mgr 10 alloc_policy.FIRST_FIT 5000 with used_nodes := 31 }).2.total_nodes
        = 40 ∧
    (_mem_resize_gap_ix
      { new_pool_mgr 10 alloc_policy.FIRST_FIT 5000 with
        pool := { (new_pool_mgr 10 alloc_policy.FIRST_FIT 5000).pool with num_gaps := 31 } }).1
        = alloc_status.ALLOC_FAIL ∧
    (_mem_resize_gap_ix
      { new_pool_mgr 10 alloc_policy.FIRST_FIT 5000 with
        pool := { (new_pool_mgr 10 alloc_policy.FIRST_FIT 5000).pool with num_gaps := 31 }
      }).2.gap_ix_capacity = 40 ∧
    (∀ m, _mem_resize_node_heap m = (alloc_status.ALLOC_FAIL, m)) ∧
    (∀ m, _mem_resize_gap_ix m = (alloc_status.ALLOC_FAIL, m)) :=
  ⟨rfl, rfl, rfl, rfl, rfl, rfl, fun _ => rfl, fun _ => rfl⟩

/-- C14 (gap-index insert), the code at the failing input: on the manager of a fresh pool
of 10 bytes (num_gaps = 1 < 40 = gap_ix_capacity, one entry, so sorted),
`_mem_add_to_gap_ix(mgr, 4, node 1)` returns ALLOC_FAIL with NDEBUG and leaves num_gaps
and the gap index as they were; without NDEBUG its `assert(result == ALLOC_OK)` stops the
program. The same holds for every manager, size and node, since `_mem_resize_gap_ix`
always returns ALLOC_FAIL. -/
theorem add_to_gap_ix_fails :
    _mem_add_to_gap_ix (new_pool_mgr 10 alloc_policy.FIRST_FIT 5000) 4 (some 1) true
      = Outcome.ok (alloc_status.ALLOC_FAIL, new_pool_mgr 10 alloc_policy.FIRST_FIT 5000) ∧
    (new_pool_mgr 10 alloc_policy.FIRST_FIT 5000).pool.num_gaps = 1 ∧
    (new_pool_mgr 10 alloc_policy.FIRST_FIT 5000).gap_ix_capacity = 40 ∧
    inv_sorted (new_pool_mgr 10 alloc_policy.FIRST_FIT 5000) = true ∧
    _mem_add_to_gap_ix (new_pool_mgr 10 alloc_policy.FIRST_FIT 5000) 4 (some 1) false
      = Outcome.aborted ∧
    (∀ m size node, _mem_add_to_gap_ix m size node true
      = Outcome.ok (alloc_status.ALLOC_FAIL, m)) ∧
    (∀ m size node, _mem_add_to_gap_ix m size node false = Outcome.aborted) :=
  ⟨rfl, rfl, rfl, rfl, rfl, fun _ _ _ => rfl, fun _ _ _ => rfl⟩

/-- C15 (open on allocation failure), the code at the failing input: on the initialised
registry, when the fourth allocation of `mem_pool_open(10, FIRST_FIT)` (the gap index)
returns NULL, the NDEBUG build frees the manager, sets `new_pmgr = NULL`, does not return
and dereferences `new_pmgr`: undefined behaviour instead of a NULL result. When one of
the first three allocations fails the NDEBUG build does return NULL with the registry
unchanged. Without NDEBUG each of the four failures stops the program at an `assert`. -/
theorem open_gap_ix_failure_dereferences_null :
    mem_pool_open st_init 10 alloc_policy.FIRST_FIT true
      { new_pmgr := some 1000, new_mem := some 5000, new_nheap := true, new_gapix := false }
      = Outcome.undefined ∧
    mem_pool_open st_init 10 alloc_policy.FIRST_FIT true
      { new_pmgr := none, new_mem := some 5000, new_nheap := true, new_gapix := true }
      = Outcome.ok (none, st_init) ∧
    mem_pool_open st_init 10 alloc_policy.FIRST_FIT true
      { new_pmgr := some 1000, new_mem := none, new_nheap := true, new_gapix := true }
      = Outcome.ok (none, st_init) ∧
    mem_pool_open st_init 10 alloc_policy.FIRST_FIT true
      { new_pmgr := some 1000, new_mem := some 5000, new_nheap := false, new_gapix := true }
      = Outcome.ok (none, st_init) ∧
    mem_pool_open st_init 10 alloc_policy.FIRST_FIT false
      { new_pmgr := some 1000, new_mem := some 5000, new_nheap := true, new_gapix := false }
      = Outcome.aborted ∧
    mem_pool_open st_init 10 alloc_policy.FIRST_FIT false
      { new_pmgr := none, new_mem := some 5000, new_nheap := true, new_gapix := true }
      = Outcome.aborted ∧
    mem_pool_open st_init 10 alloc_policy.FIRST_FIT false
      { new_pmgr := some 1000, new_mem := none, new_nheap := true, new_gapix := true }
      = Outcome.aborted ∧
    mem_pool_open st_init 10 alloc_policy.FIRST_FIT false
      { new_pmgr := some 1000, new_mem := some 5000, new_nheap := false, new_gapix := true }
      = Outcome.aborted :=
  ⟨rfl, rfl, rfl, rfl, rfl, rfl, rfl, rfl⟩

/-! ## The sort pass of the gap index -/

/-- C16 (one pass sorts), the code at the failing input: with `num_gaps = 2` and the gap
index [(5, node 0), (3, node 2)] (one sorted entry and the appended one),
`_mem_sort_gap_ix` returns ALLOC_OK and leaves the index as it was, so its first two
entries are not sorted: `int i = 1` and the loop condition `--i` is 0 at once. With
`num_gaps = 3` and sizes [1, 5, 3] the body runs at index 1 only and the appended entry
at index 2 is never compared: the index stays unsorted too. -/
theorem sort_pass_leaves_appended_entry :
    gaps_sorted mgr_appended (mgr_appended.gap_ix.take 1) = true ∧
    _mem_sort_gap_ix mgr_appended = Outcome.ok (alloc_status.ALLOC_OK, mgr_appended) ∧
    mgr_appended.gap_ix = [{ size := 5, node := some 0 }, { size := 3, node := some 2 }] ∧
    inv_sorted mgr_appended = false ∧
    gaps_sorted mgr_appended3 (mgr_appended3.gap_ix.take 2) = true ∧
    _mem_sort_gap_ix mgr_appended3 = Outcome.ok (alloc_status.ALLOC_OK, mgr_appended3) ∧
    inv_sorted mgr_appended3 = false :=
  ⟨rfl, by decide, rfl, rfl, rfl, by decide, rfl⟩

/-- C17 (address tie-break), the code at the failing input: with `num_gaps = 3` and the gap
index [(5, addr 200), (5, addr 100), (9, addr 300)] the pass visits index 1, where the
sizes are equal and entry 1 has the lower address, and does not swap: the address test
compares `gap_ix[i].node->alloc_record.mem` with itself. The result still begins
(5, addr 200), (5, addr 100). -/
theorem sort_pass_ignores_address_tie :
    mgr_tie.pool.num_gaps = 3 ∧
    mgr_tie.gap_ix.map (fun g => (g.size, gap_addr mgr_tie g))
      = [(5, 200), (5, 100), (9, 300)] ∧
    sort_pass mgr_tie (mgr_tie.pool.num_gaps - 2) = sort_step mgr_tie 1 ∧
    sort_step mgr_tie 1 = Outcome.ok mgr_tie ∧
    _mem_sort_gap_ix mgr_tie = Outcome.ok (alloc_status.ALLOC_OK, mgr_tie) ∧
    (∀ m, _mem_sort_gap_ix mgr_tie = Outcome.ok (alloc_status.ALLOC_OK, m) →
      (m.gap_ix.take 2).map (fun g => (g.size, gap_addr m g)) = [(5, 200), (5, 100)]) ∧
    (∀ p, ptr_lt p p = false) := by
  refine ⟨rfl, rfl, by decide, by decide, by decide, ?_, ?_⟩
  · intro m hm
    have h : Outcome.ok (alloc_status.ALLOC_OK, mgr_tie) = Outcome.ok (alloc_status.ALLOC_OK, m) := by
      rw [← hm]
      decide
    simp only [Outcome.ok.injEq, Prod.mk.injEq, true_and] at h
    subst h
    rfl
  · intro p
    simp [ptr_lt]

/-- C18 (the pass is safe from one gap on), the code at the failing input: on the manager
of a fresh pool (`num_gaps = 1`, the state right after an insert into an empty index)
`int i = 0`, the loop condition `--i` is -1, so the body runs and reads `gap_ix[-1]`:
undefined behaviour, for every manager with `num_gaps = 1`. -/
theorem sort_pass_one_gap_reads_before_index :
    (new_pool_mgr 10 alloc_policy.FIRST_FIT 5000).pool.num_gaps = 1 ∧
    _mem_sort_gap_ix (new_pool_mgr 10 alloc_policy.FIRST_FIT 5000) = Outcome.undefined ∧
    (∀ m : pool_mgr_t,
      _mem_sort_gap_ix { m with pool := { m.pool with num_gaps := 1 } } = Outcome.undefined) :=
  ⟨rfl, rfl, fun _ => rfl⟩

/-! ## mem_pool_open on a registry that is not initialised -/

/-- C19 (open without a registry): for every size, policy, build and allocation results,
`mem_pool_open` called while `pool_store` is NULL returns NULL and leaves the state
(`pool_store`, `pool_store_size`, `pool_store_capacity`) unchanged; that is the case at
program start and in the state a `mem_free` returning ALLOC_OK leaves. -/
theorem mem_pool_open_uninitialised (st : State) (size : Nat) (policy : alloc_policy)
    (ndebug : Bool) (env : OpenAllocs) :
    (st.pool_store = none →
      mem_pool_open st size policy ndebug env = Outcome.ok (none, st)) ∧
    (∀ st1, mem_free st = Outcome.ok (alloc_status.ALLOC_OK, st1) →
      mem_pool_open st1 size policy ndebug env = Outcome.ok (none, st1)) ∧
    mem_pool_open State.initial size policy ndebug env = Outcome.ok (none, State.initial) := by
  have hnone : ∀ s : State, s.pool_store = none →
      mem_pool_open s size policy ndebug env = Outcome.ok (none, s) := by
    intro s hs
    simp [mem_pool_open, hs]
  refine ⟨hnone st, ?_, hnone State.initial rfl⟩
  intro st1 hfree
  apply hnone
  unfold mem_free at hfree
  cases hs : st.pool_store with
  | none => simp [hs] at hfree
  | some store =>
    simp only [hs] at hfree
    cases hscan : mem_free_scan store 0 st.pool_store_size with
    | aborted => simp [hscan] at hfree
    | undefined => simp [hscan] at hfree
    | ok b =>
      cases b with
      | true => simp [hscan] at hfree
      | false =>
        simp only [hscan, Outcome.ok.injEq, Prod.mk.injEq, true_and] at hfree
        rw [← hfree]

/-- Witness for C19: `mem_pool_open(10, FIRST_FIT)` at program start, and
`mem_pool_open(7, BEST_FIT)` after `mem_init` followed by a `mem_free` that returns
ALLOC_OK (which leaves the state of program start). -/
theorem mem_pool_open_uninitialised_witness :
    mem_pool_open State.initial 10 alloc_policy.FIRST_FIT true allocs_ok
      = Outcome.ok (none, State.initial) ∧
    mem_free st_init = Outcome.ok (alloc_status.ALLOC_OK, State.initial) ∧
    mem_pool_open State.initial 7 alloc_policy.BEST_FIT false allocs_ok
      = Outcome.ok (none, State.initial) :=
  ⟨(mem_pool_open_uninitialised State.initial 10 alloc_policy.FIRST_FIT true allocs_ok).1 rfl,
   rfl,
   (mem_pool_open_uninitialised st_init 7 alloc_policy.BEST_FIT false allocs_ok).2.1
     State.initial rfl⟩

/-! ## The growth rule of the pool store -/

theorem round_half_even_gt_iff (a b T : Nat) (hb : 0 < b) (hT : T % 2 = 0) :
    T < round_half_even a b ↔ (2 * T + 1) * b < 2 * a := by
  have hdm : b * (a / b) + a % b = a := Nat.div_add_mod a b
  have hr : a % b < b := Nat.mod_lt a hb
  have e1 : (2 * T + 1) * b = 2 * (b * T) + b := by ring
  rw [e1]
  unfold round_half_even
  rcases Nat.lt_trichotomy T (a / b) with hlt | heq | hgt
  · have hp : b * (T + 1) ≤ b * (a / b) := Nat.mul_le_mul_left b hlt
    rw [Nat.mul_add, Nat.mul_one] at hp
    split_ifs <;> constructor <;> intro _ <;> omega
  · subst heq
    split_ifs with h <;> constructor <;> intro _ <;> omega
  · have hp : b * (a / b + 1) ≤ b * T := Nat.mul_le_mul_left b hgt
    rw [Nat.mul_add, Nat.mul_one] at hp
    split_ifs <;> constructor <;> intro _ <;> omega

theorem floor_log2_aux_mono :
    ∀ (fuel a b : Nat), a ≤ b → floor_log2_aux fuel a ≤ floor_log2_aux fuel b := by
  intro fuel
  induction fuel with
  | zero => intro a b _; simp [floor_log2_aux]
  | succ f ih =>
    intro a b hab
    simp only [floor_log2_aux]
    by_cases ha : a < 2
    · simp [ha]
    · have hb : ¬ b < 2 := by omega
      simp only [ha, hb, if_false]
      exact Nat.succ_le_succ (ih (a / 2) (b / 2) (Nat.div_le_div_right hab))

theorem float_of_unsigned_small (n : Nat) (h : n < 2 ^ 24) : float_of_unsigned n = n := by
  unfold float_of_unsigned
  rw [if_pos h]

theorem float_div_gt_fill (s c P D : Nat) (hP : 0 < P) (hD : 0 < D)
    (hc0 : 0 < c) (hc : c ≤ 2 ^ 23) (hsc : s ≤ c) (la lb : Nat)
    (hla : 2 ^ la = P) (hlb : 2 ^ (24 + lb) = 2 ^ 24 * (P * D))
    (hlb2 : 2 ^ (lb + 24) = 2 ^ 24 * (P * D)) :
    (3 * (if s * 2 ^ (24 + lb) < 2 ^ 24 * (c * 2 ^ la) then
        (round_half_even (s * 2 ^ (24 + lb)) (c * 2 ^ la) * 2 ^ la, 2 ^ (lb + 24))
      else
        (round_half_even (s * 2 ^ (24 + lb)) (2 * (c * 2 ^ la)) * 2 ^ (la + 1),
          2 ^ (lb + 24))).2
      < 4 * (if s * 2 ^ (24 + lb) < 2 ^ 24 * (c * 2 ^ la) then
        (round_half_even (s * 2 ^ (24 + lb)) (c * 2 ^ la) * 2 ^ la, 2 ^ (lb + 24))
      else
        (round_half_even (s * 2 ^ (24 + lb)) (2 * (c * 2 ^ la)) * 2 ^ (la + 1),
          2 ^ (lb + 24))).1) ↔ 3 * c < 4 * s := by
  have hla1 : 2 ^ (la + 1) = 2 * P := by rw [pow_succ, hla]; ring
  rw [hlb, hlb2, hla, hla1]
  have h223 : (2 : Nat) ^ 23 = 8388608 := by norm_num
  have h224 : (2 : Nat) ^ 24 = 16777216 := by norm_num
  rw [h224]
  rw [h223] at hc
  -- the products of s and c with D
  have hsD : s * D ≤ c * D := Nat.mul_le_mul_right D hsc
  have hsD1 : s ≤ s * D := Nat.le_mul_of_pos_right s hD
  have hcD1 : c ≤ c * D := Nat.le_mul_of_pos_right c hD
  by_cases hcase : s * (16777216 * (P * D)) < 16777216 * (c * P)
  · simp only [hcase, if_true]
    -- threshold T = 3 * 2^22 * D
    have hT : (12582912 * D) % 2 = 0 := by omega
    have hb : 0 < c * P := Nat.mul_pos hc0 hP
    have hiff := round_half_even_gt_iff (s * (16777216 * (P * D))) (c * P) (12582912 * D) hb hT
    have e1 : 3 * (16777216 * (P * D)) = P * (4 * (12582912 * D)) := by ring
    have e2 : 4 * (round_half_even (s * (16777216 * (P * D))) (c * P) * P)
        = P * (4 * round_half_even (s * (16777216 * (P * D))) (c * P)) := by ring
    rw [e1, e2, Nat.mul_lt_mul_left hP]
    have e3 : (2 * (12582912 * D) + 1) * (c * P) = P * (25165824 * (c * D) + c) := by ring
    have e4 : 2 * (s * (16777216 * (P * D))) = P * (33554432 * (s * D)) := by ring
    rw [e3, e4, Nat.mul_lt_mul_left hP] at hiff
    constructor
    · intro h
      have h2 := hiff.mp (by omega)
      by_contra hn
      have h3 : 4 * (s * D) ≤ 3 * (c * D) := by
        have := Nat.mul_le_mul_right D (Nat.le_of_not_lt hn)
        calc 4 * (s * D) = 4 * s * D := by ring
          _ ≤ 3 * c * D := this
          _ = 3 * (c * D) := by ring
      omega
    · intro h
      have hk : 3 * (c * D) + D ≤ 4 * (s * D) := by
        have := Nat.mul_le_mul_right D (Nat.succ_le_of_lt h)
        calc 3 * (c * D) + D = (3 * c).succ * D := by simp [Nat.succ_eq_add_one]; ring
          _ ≤ 4 * s * D := this
          _ = 4 * (s * D) := by ring
      have hk4 : c = 8388608 → 3 * (c * D) + 4 * D ≤ 4 * (s * D) := by
        intro hceq
        have h4 : 3 * c + 4 ≤ 4 * s := by omega
        have := Nat.mul_le_mul_right D h4
        calc 3 * (c * D) + 4 * D = (3 * c + 4) * D := by ring
          _ ≤ 4 * s * D := this
          _ = 4 * (s * D) := by ring
      have h2 : 25165824 * (c * D) + c < 33554432 * (s * D) := by
        by_cases hceq : c = 8388608
        · have := hk4 hceq
          omega
        · omega
      have := hiff.mpr h2
      omega
  · simp only [hcase, if_false]
    have hcase2 : c ≤ s * D := by
      by_contra hn
      apply hcase
      have hlt : s * D < c := Nat.lt_of_not_le hn
      have := Nat.mul_lt_mul_of_pos_right hlt (Nat.mul_pos (by norm_num : 0 < 16777216) hP)
      calc s * (16777216 * (P * D)) = s * D * (16777216 * P) := by ring
        _ < c * (16777216 * P) := this
        _ = 16777216 * (c * P) := by ring
    have hT : (6291456 * D) % 2 = 0 := by omega
    have hb : 0 < 2 * (c * P) := Nat.mul_pos (by norm_num) (Nat.mul_pos hc0 hP)
    have hiff := round_half_even_gt_iff (s * (16777216 * (P * D))) (2 * (c * P))
      (6291456 * D) hb hT
    have e1 : 3 * (16777216 * (P * D)) = P * (8 * (6291456 * D)) := by ring
    have e2 : 4 * (round_half_even (s * (16777216 * (P * D))) (2 * (c * P)) * (2 * P))
        = P * (8 * round_half_even (s * (16777216 * (P * D))) (2 * (c * P))) := by ring
    rw [e1, e2, Nat.mul_lt_mul_left hP]
    have e3 : (2 * (6291456 * D) + 1) * (2 * (c * P)) = P * (25165824 * (c * D) + 2 * c) := by
      ring
    have e4 : 2 * (s * (16777216 * (P * D))) = P * (33554432 * (s * D)) := by ring
    rw [e3, e4, Nat.mul_lt_mul_left hP] at hiff
    constructor
    · intro h
      have h2 := hiff.mp (by omega)
      by_contra hn
      have h3 : 4 * (s * D) ≤ 3 * (c * D) := by
        have := Nat.mul_le_mul_right D (Nat.le_of_not_lt hn)
        calc 4 * (s * D) = 4 * s * D := by ring
          _ ≤ 3 * c * D := this
          _ = 3 * (c * D) := by ring
      omega
    · intro h
      have h2 : 25165824 * (c * D) + 2 * c < 33554432 * (s * D) := by
        rcases Nat.eq_or_lt_of_le (Nat.succ_le_of_lt hD) with hD1 | hD2
        · -- D = 1: then s = c
          have hD1' : D = 1 := hD1.symm
          subst hD1'
          simp only [Nat.mul_one] at hcase2 ⊢
          omega
        · have hk : 3 * (c * D) + D ≤ 4 * (s * D) := by
            have := Nat.mul_le_mul_right D (Nat.succ_le_of_lt h)
            calc 3 * (c * D) + D = (3 * c).succ * D := by simp [Nat.succ_eq_add_one]; ring
              _ ≤ 4 * s * D := this
              _ = 4 * (s * D) := by ring
          have hk4 : c = 8388608 → 3 * (c * D) + 4 * D ≤ 4 * (s * D) := by
            intro hceq
            have h4 : 3 * c + 4 ≤ 4 * s := by omega
            have := Nat.mul_le_mul_right D h4
            calc 3 * (c * D) + 4 * D = (3 * c + 4) * D := by ring
              _ ≤ 4 * s * D := this
              _ = 4 * (s * D) := by ring
          by_cases hceq : c = 8388608
          · have := hk4 hceq
            omega
          · omega
      have := hiff.mpr h2
      omega

theorem fill_exceeded_iff (s c : Nat) (hc0 : 0 < c) (hc : c ≤ 2 ^ 23) (hsc : s ≤ c) :
    fill_exceeded s c = true ↔ 3 * c < 4 * s := by
  have hc24 : c < 2 ^ 24 := by
    have : (2 : Nat) ^ 23 < 2 ^ 24 := by norm_num
    omega
  have hs24 : s < 2 ^ 24 := by omega
  unfold fill_exceeded
  rw [float_of_unsigned_small s hs24, float_of_unsigned_small c hc24]
  have hcne : ¬ c = 0 := by omega
  simp only [hcne, if_false]
  by_cases hs0 : s = 0
  · subst hs0
    simp
  · simp only [hs0, if_false, decide_eq_true_eq, MEM_POOL_STORE_FILL_FACTOR]
    have hmono : floor_log2 s ≤ floor_log2 c := floor_log2_aux_mono 64 s c hsc
    obtain ⟨d, hd⟩ := Nat.exists_eq_add_of_le hmono
    unfold float_div
    apply float_div_gt_fill s c (2 ^ floor_log2 s) (2 ^ d) (by positivity) (by positivity)
      hc0 hc hsc (floor_log2 s) (floor_log2 c) rfl
    · rw [hd]; ring
    · rw [hd]; ring

theorem floor_log2_aux_spec :
    ∀ (fuel n : Nat), 0 < n → n < 2 ^ fuel →
      2 ^ floor_log2_aux fuel n ≤ n ∧ n < 2 ^ (floor_log2_aux fuel n + 1) := by
  intro fuel
  induction fuel with
  | zero => intro n h0 h1; simp at h1; omega
  | succ f ih =>
    intro n h0 h1
    simp only [floor_log2_aux]
    by_cases hn : n < 2
    · simp only [hn, if_true]
      constructor <;> simp <;> omega
    · simp only [hn, if_false]
      have hhalf : n / 2 < 2 ^ f := by
        rw [pow_succ] at h1
        omega
      obtain ⟨hlo, hhi⟩ := ih (n / 2) (by omega) hhalf
      rw [pow_succ, pow_succ]
      rw [pow_succ] at hhi
      constructor <;> omega

theorem floor_log2_spec (n : Nat) (h0 : 0 < n) (h1 : n < 2 ^ 64) :
    2 ^ floor_log2 n ≤ n ∧ n < 2 ^ (floor_log2 n + 1) :=
  floor_log2_aux_spec 64 n h0 h1

theorem round_half_even_bounds (a b : Nat) :
    a / b ≤ round_half_even a b ∧ round_half_even a b ≤ a / b + 1 := by
  unfold round_half_even
  split_ifs <;> constructor <;> omega

theorem float_of_unsigned_large (n : Nat) (h24 : 2 ^ 24 ≤ n) (h32 : n < 2 ^ 32) :
    2 ^ 24 ≤ float_of_unsigned n ∧ float_of_unsigned n ≤ 2 ^ 32 := by
  have hn64 : n < 2 ^ 64 := lt_trans h32 (by norm_num)
  obtain ⟨hlo, hhi⟩ := floor_log2_spec n (lt_of_lt_of_le (by norm_num) h24) hn64
  have hL24 : 24 ≤ floor_log2 n := by
    by_contra hcon
    have hle : floor_log2 n + 1 ≤ 24 := by omega
    have : (2 : Nat) ^ (floor_log2 n + 1) ≤ 2 ^ 24 := Nat.pow_le_pow_right (by norm_num) hle
    omega
  have hL31 : floor_log2 n ≤ 31 := by
    by_contra hcon
    have hle : 32 ≤ floor_log2 n := by omega
    have : (2 : Nat) ^ 32 ≤ 2 ^ floor_log2 n := Nat.pow_le_pow_right (by norm_num) hle
    omega
  obtain ⟨k, hk⟩ : ∃ k, floor_log2 n = k + 23 := ⟨floor_log2 n - 23, by omega⟩
  have hnot : ¬ n < 2 ^ 24 := by omega
  unfold float_of_unsigned
  rw [if_neg hnot, hk, Nat.add_sub_cancel]
  have hK : 0 < 2 ^ k := by positivity
  have e1 : (2 : Nat) ^ (k + 23) = 2 ^ 23 * 2 ^ k := by rw [pow_add]; ring
  have e2 : (2 : Nat) ^ (k + 23 + 1) = 2 ^ 24 * 2 ^ k := by rw [pow_succ, pow_add]; ring
  rw [hk, e1] at hlo
  rw [hk, e2] at hhi
  have hq1 : 2 ^ 23 ≤ n / 2 ^ k := (Nat.le_div_iff_mul_le hK).mpr hlo
  have hq2 : n / 2 ^ k < 2 ^ 24 := (Nat.div_lt_iff_lt_mul hK).mpr hhi
  obtain ⟨hr1, hr2⟩ := round_half_even_bounds n (2 ^ k)
  have hk1 : 1 ≤ k := by omega
  have hk8 : k ≤ 8 := by omega
  have hK2 : 2 ≤ 2 ^ k := by
    calc 2 = 2 ^ 1 := by norm_num
      _ ≤ 2 ^ k := Nat.pow_le_pow_right (by norm_num) hk1
  have hK8 : 2 ^ k ≤ 2 ^ 8 := Nat.pow_le_pow_right (by norm_num) hk8
  constructor
  · calc 2 ^ 24 = 2 ^ 23 * 2 := by norm_num
      _ ≤ round_half_even n (2 ^ k) * 2 ^ k :=
        Nat.mul_le_mul (le_trans hq1 hr1) hK2
  · calc round_half_even n (2 ^ k) * 2 ^ k ≤ 2 ^ 24 * 2 ^ 8 :=
        Nat.mul_le_mul (by omega) hK8
      _ = 2 ^ 32 := by norm_num

theorem float_div_above (a c : Nat) (hc0 : 0 < c) (hac : c < a) (ha : a < 2 ^ 64) :
    3 * (float_div a c).2 < 4 * (float_div a c).1 := by
  have hc64 : c < 2 ^ 64 := lt_trans hac ha
  obtain ⟨halo, _⟩ := floor_log2_spec a (by omega) ha
  obtain ⟨_, hchi⟩ := floor_log2_spec c hc0 hc64
  have hmono : floor_log2 c ≤ floor_log2 a := floor_log2_aux_mono 64 c a (Nat.le_of_lt hac)
  obtain ⟨d, hd⟩ := Nat.exists_eq_add_of_le hmono
  have eA : (2 : Nat) ^ (24 + floor_log2 c) = 16777216 * 2 ^ floor_log2 c := by
    rw [pow_add]; norm_num
  have eA2 : (2 : Nat) ^ (floor_log2 c + 24) = 16777216 * 2 ^ floor_log2 c := by
    rw [pow_add]; norm_num; ring
  have eB : (2 : Nat) ^ floor_log2 a = 2 ^ floor_log2 c * 2 ^ d := by rw [hd, pow_add]
  have eB1 : (2 : Nat) ^ (floor_log2 a + 1) = 2 * (2 ^ floor_log2 c * 2 ^ d) := by
    rw [pow_succ, eB]; ring
  have eC : (2 : Nat) ^ (floor_log2 c + 1) = 2 * 2 ^ floor_log2 c := by rw [pow_succ]; ring
  rw [eB] at halo
  rw [eC] at hchi
  unfold float_div
  rw [eA, eA2, eB, eB1]
  generalize (2 : Nat) ^ floor_log2 c = Q at *
  generalize hE : (2 : Nat) ^ d = E at *
  have hQ : 0 < Q := by
    rcases Nat.eq_zero_or_pos Q with h | h
    · subst h; omega
    · exact h
  have hEpos : 0 < E := by rw [← hE]; positivity
  -- c * E < 2 * a
  have hcE : c * E < 2 * a := by
    have h1 : c * E < 2 * Q * E := Nat.mul_lt_mul_of_pos_right hchi hEpos
    have h2 : 2 * Q * E = 2 * (Q * E) := by ring
    omega
  by_cases hcase : a * (16777216 * Q) < 2 ^ 24 * (c * (Q * E))
  · simp only [hcase, if_true]
    have hE2 : 2 ≤ E := by
      by_contra hcon
      have hE1 : E = 1 := by omega
      subst hE1
      have h224 : (2 : Nat) ^ 24 = 16777216 := by norm_num
      rw [h224, Nat.mul_one] at hcase
      have h3 : c * (16777216 * Q) < a * (16777216 * Q) :=
        Nat.mul_lt_mul_of_pos_right hac (Nat.mul_pos (by norm_num) hQ)
      have h4 : 16777216 * (c * Q) = c * (16777216 * Q) := by ring
      omega
    have hB : 0 < c * (Q * E) := Nat.mul_pos hc0 (Nat.mul_pos hQ hEpos)
    have hM : 8388608 ≤ round_half_even (a * (16777216 * Q)) (c * (Q * E)) := by
      refine le_trans ?_ (round_half_even_bounds _ _).1
      rw [Nat.le_div_iff_mul_le hB]
      have h1 : 8388608 * (c * (Q * E)) = (c * E) * (8388608 * Q) := by ring
      have h2 : a * (16777216 * Q) = (2 * a) * (8388608 * Q) := by ring
      rw [h1, h2]
      exact Nat.mul_le_mul_right _ (Nat.le_of_lt hcE)
    have h5 : 8388608 * (Q * 2) ≤
        round_half_even (a * (16777216 * Q)) (c * (Q * E)) * (Q * E) :=
      Nat.mul_le_mul hM (Nat.mul_le_mul_left Q hE2)
    omega
  · simp only [hcase, if_false]
    have hB : 0 < 2 * (c * (Q * E)) := Nat.mul_pos (by norm_num) (Nat.mul_pos hc0 (Nat.mul_pos hQ hEpos))
    have hM : 8388608 ≤ round_half_even (a * (16777216 * Q)) (2 * (c * (Q * E))) := by
      refine le_trans ?_ (round_half_even_bounds _ _).1
      rw [Nat.le_div_iff_mul_le hB]
      have h224 : (2 : Nat) ^ 24 = 16777216 := by norm_num
      rw [h224] at hcase
      omega
    have hQE : Q ≤ Q * E := Nat.le_mul_of_pos_right Q hEpos
    have h5 : 8388608 * Q ≤
        round_half_even (a * (16777216 * Q)) (2 * (c * (Q * E))) * (Q * E) :=
      Nat.mul_le_mul hM hQE
    have h6 : round_half_even (a * (16777216 * Q)) (2 * (c * (Q * E))) * (2 * (Q * E))
        = 2 * (round_half_even (a * (16777216 * Q)) (2 * (c * (Q * E))) * (Q * E)) := by ring
    omega

theorem fill_exceeded_above (s c : Nat) (hc0 : 0 < c) (hc : c ≤ 2 ^ 23) (hcs : c < s)
    (hs : s < 2 ^ 32) : fill_exceeded s c = true := by
  have h223 : (2 : Nat) ^ 23 = 8388608 := by norm_num
  have h224 : (2 : Nat) ^ 24 = 16777216 := by norm_num
  have h232 : (2 : Nat) ^ 32 = 4294967296 := by norm_num
  have hc24 : c < 2 ^ 24 := by omega
  have ha : c < float_of_unsigned s ∧ float_of_unsigned s ≤ 2 ^ 32 := by
    by_cases hs24 : s < 2 ^ 24
    · rw [float_of_unsigned_small s hs24]
      omega
    · obtain ⟨h1, h2⟩ := float_of_unsigned_large s (by omega) hs
      omega
  have ha64 : float_of_unsigned s < 2 ^ 64 := lt_of_le_of_lt ha.2 (by norm_num)
  unfold fill_exceeded
  rw [float_of_unsigned_small c hc24]
  have hcne : ¬ c = 0 := by omega
  have hane : ¬ float_of_unsigned s = 0 := by omega
  simp only [hcne, hane, if_false, decide_eq_true_eq, MEM_POOL_STORE_FILL_FACTOR]
  exact float_div_above (float_of_unsigned s) c hc0 ha.1 ha64

theorem fill_exceeded_iff_of_unsigned (s c : Nat) (hc0 : 0 < c) (hc : c ≤ 2 ^ 23)
    (hs : s < 2 ^ 32) : fill_exceeded s c = true ↔ 3 * c < 4 * s := by
  by_cases hsc : s ≤ c
  · exact fill_exceeded_iff s c hc0 hc hsc
  · have hcs : c < s := Nat.lt_of_not_le hsc
    constructor
    · intro _; omega
    · intro _; exact fill_exceeded_above s c hc0 hc hcs hs

/-- C13, counterexample (pool-store growth rule): three registry states with
`pool_store_capacity > 0` at which the rule as stated fails. With 16 pools in a store of
20 and `realloc` returning NULL, `_mem_resize_pool_store` returns ALLOC_OK and leaves
`pool_store = NULL`: the existing entries are gone. With size 6291457 and capacity
8388609 = 2^23 + 1, 4 * size > 3 * capacity, but the binary32 quotient rounds to 0.75 and
the capacity is not doubled. With size and capacity 2^31 the doubled capacity wraps
around to 0 in `unsigned` arithmetic: the capacity decreases. -/
theorem resize_pool_store_counterexample :
    (_mem_resize_pool_store st_sixteen none).1 = alloc_status.ALLOC_OK ∧
    st_sixteen.pool_store ≠ none ∧
    (_mem_resize_pool_store st_sixteen none).2.pool_store = none ∧
    (3 * 8388609 < 4 * 6291457 ∧
      (_mem_resize_pool_store (st_sized 6291457 8388609) (some (fun _ => none))).2.pool_store_capacity
        = 8388609) ∧
    (3 * 2147483648 < 4 * 2147483648 ∧
      (_mem_resize_pool_store (st_sized 2147483648 2147483648)
        (some (fun _ => none))).2.pool_store_capacity = 0) := by
  refine ⟨by decide, by decide, by decide, ⟨by decide, by decide⟩, ⟨by decide, by decide⟩⟩

/-- C13 as amended (pool-store growth rule): for every registry state whose pool store
is an array of `pool_store_capacity` entries, with `0 < pool_store_capacity <= 2^23` and
`pool_store_size` an `unsigned` value, `_mem_resize_pool_store` returns ALLOC_OK; the
new capacity is twice the old one exactly when
`4 * pool_store_size > 3 * pool_store_capacity` and the old one otherwise, so it never
decreases; `pool_store_size` and the pool managers are unchanged; and when `realloc`
succeeds the pool store has the new capacity as its length and keeps every existing
entry at its index (when the capacity is doubled and `realloc` fails, `pool_store`
becomes NULL). -/
theorem resize_pool_store_spec (st : State) (store : List (Option Nat))
    (hs : st.pool_store = some store) (hlen : store.length = st.pool_store_capacity)
    (hsize : st.pool_store_size < UINT_MOD)
    (hpos : 0 < st.pool_store_capacity) (hcap : st.pool_store_capacity ≤ 2 ^ 23) :
    (∀ realloc_result,
      (_mem_resize_pool_store st realloc_result).1 = alloc_status.ALLOC_OK ∧
      (_mem_resize_pool_store st realloc_result).2.pool_store_capacity
        = (if 3 * st.pool_store_capacity < 4 * st.pool_store_size
            then 2 * st.pool_store_capacity else st.pool_store_capacity) ∧
      st.pool_store_capacity
        ≤ (_mem_resize_pool_store st realloc_result).2.pool_store_capacity ∧
      (_mem_resize_pool_store st realloc_result).2.pool_store_size = st.pool_store_size ∧
      (_mem_resize_pool_store st realloc_result).2.heap = st.heap) ∧
    (∀ added, ∃ store',
      (_mem_resize_pool_store st (some added)).2.pool_store = some store' ∧
      store'.length = (_mem_resize_pool_store st (some added)).2.pool_store_capacity ∧
      ∀ i, i < store.length → store'[i]? = store[i]?) ∧
    (3 * st.pool_store_capacity < 4 * st.pool_store_size →
      (_mem_resize_pool_store st none).2.pool_store = none) ∧
    (¬ 3 * st.pool_store_capacity < 4 * st.pool_store_size →
      ∀ realloc_result, (_mem_resize_pool_store st realloc_result).2 = st) := by
  have hiff := fill_exceeded_iff_of_unsigned st.pool_store_size st.pool_store_capacity hpos
    hcap hsize
  have h223 : (2 : Nat) ^ 23 = 8388608 := by norm_num
  have hmod : (st.pool_store_capacity * MEM_POOL_STORE_EXPAND_FACTOR) % UINT_MOD
      = 2 * st.pool_store_capacity := by
    have : st.pool_store_capacity * MEM_POOL_STORE_EXPAND_FACTOR < UINT_MOD := by
      simp only [MEM_POOL_STORE_EXPAND_FACTOR, UINT_MOD]
      omega
    rw [Nat.mod_eq_of_lt this]
    simp only [MEM_POOL_STORE_EXPAND_FACTOR]
    omega
  by_cases hfill : 3 * st.pool_store_capacity < 4 * st.pool_store_size
  · have hex : fill_exceeded st.pool_store_size st.pool_store_capacity = true := hiff.mpr hfill
    refine ⟨?_, ?_, ?_, ?_⟩
    · intro realloc_result
      simp only [_mem_resize_pool_store, hex, if_true, hmod, hfill]
      exact ⟨trivial, trivial, by omega, trivial, trivial⟩
    · intro added
      simp only [_mem_resize_pool_store, hex, if_true, hmod, hs, Option.getD_some]
      refine ⟨_, rfl, by simp, ?_⟩
      intro i hi
      have hi2 : i < 2 * st.pool_store_capacity := by omega
      have hget : store[i]? = some store[i] := List.getElem?_eq_getElem hi
      simp [List.getElem?_map, List.getElem?_range hi2, hget]
    · intro _
      simp only [_mem_resize_pool_store, hex, if_true]
    · intro hn
      exact absurd hfill hn
  · have hex : fill_exceeded st.pool_store_size st.pool_store_capacity = false := by
      cases h : fill_exceeded st.pool_store_size st.pool_store_capacity with
      | false => rfl
      | true => exact absurd (hiff.mp h) hfill
    have hsame : ∀ realloc_result, _mem_resize_pool_store st realloc_result
        = (alloc_status.ALLOC_OK, st) := by
      intro realloc_result
      simp [_mem_resize_pool_store, hex]
    refine ⟨?_, ?_, ?_, ?_⟩
    · intro realloc_result
      rw [hsame]
      simp [hfill]
    · intro added
      rw [hsame]
      exact ⟨store, hs, hlen, fun _ _ => rfl⟩
    · intro h
      exact absurd h hfill
    · intro _ realloc_result
      rw [hsame]

/-- Witness for C13 as amended: the registry with 16 pools in a store of 20 (16/20 > 0.75),
where the capacity becomes 40, and the freshly initialised registry, which stays as it
is. -/
theorem resize_pool_store_spec_witness :
    ((_mem_resize_pool_store st_sixteen (some (fun _ => none))).1 = alloc_status.ALLOC_OK ∧
      (_mem_resize_pool_store st_sixteen (some (fun _ => none))).2.pool_store_capacity
        = (if 3 * st_sixteen.pool_store_capacity < 4 * st_sixteen.pool_store_size
            then 2 * st_sixteen.pool_store_capacity else st_sixteen.pool_store_capacity) ∧
      st_sixteen.pool_store_capacity
        ≤ (_mem_resize_pool_store st_sixteen (some (fun _ => none))).2.pool_store_capacity ∧
      (_mem_resize_pool_store st_sixteen (some (fun _ => none))).2.pool_store_size
        = st_sixteen.pool_store_size ∧
      (_mem_resize_pool_store st_sixteen (some (fun _ => none))).2.heap = st_sixteen.heap) ∧
    (∀ realloc_result, (_mem_resize_pool_store st_init realloc_result).2 = st_init) :=
  ⟨(resize_pool_store_spec st_sixteen _ rfl (by decide) (by decide) (by decide)
      (by decide)).1 (some (fun _ => none)),
   (resize_pool_store_spec st_init _ rfl (by decide) (by decide) (by decide)
      (by decide)).2.2.2 (by decide)⟩

/-! ## The sort pass only permutes -/

theorem set_set_swap {α : Type} :
    ∀ (l : List α) (j n : Nat) (cur prev : α), l[j + 1]? = some cur → l[j]? = some prev →
      j + 2 ≤ n →
      (((l.set (j + 1) prev).set j cur).take n).Perm (l.take n) ∧
      ((l.set (j + 1) prev).set j cur).drop n = l.drop n := by
  intro l
  induction l with
  | nil => intro j n cur prev _ hprev; simp at hprev
  | cons a t ih =>
    intro j n cur prev hcur hprev hn
    cases j with
    | zero =>
      have ha : a = prev := by simpa using hprev
      subst ha
      cases t with
      | nil => simp at hcur
      | cons b t' =>
        have hb : b = cur := by simpa using hcur
        subst hb
        obtain ⟨n', rfl⟩ : ∃ n', n = n' + 2 := ⟨n - 2, by omega⟩
        simp only [List.set_cons_succ, List.set_cons_zero, List.take_succ_cons,
          List.drop_succ_cons]
        exact ⟨List.Perm.swap a b _, trivial⟩
    | succ j =>
      obtain ⟨n', rfl⟩ : ∃ n', n = n' + 1 := ⟨n - 1, by omega⟩
      have hcur' : t[j + 1]? = some cur := by simpa using hcur
      have hprev' : t[j]? = some prev := by simpa using hprev
      obtain ⟨hp, hd⟩ := ih j n' cur prev hcur' hprev' (by omega)
      simp only [List.set_cons_succ, List.take_succ_cons, List.drop_succ_cons]
      exact ⟨List.Perm.cons a hp, hd⟩

theorem gap_ix_permuted_refl (n : Nat) (m : pool_mgr_t) : gap_ix_permuted n m m :=
  ⟨rfl, rfl, rfl, rfl, rfl, rfl, List.Perm.refl _, rfl⟩

theorem gap_ix_permuted_trans (n : Nat) (m1 m2 m3 : pool_mgr_t)
    (h12 : gap_ix_permuted n m1 m2) (h23 : gap_ix_permuted n m2 m3) :
    gap_ix_permuted n m1 m3 := by
  obtain ⟨a1, a2, a3, a4, a5, a6, a7, a8⟩ := h12
  obtain ⟨b1, b2, b3, b4, b5, b6, b7, b8⟩ := h23
  exact ⟨b1.trans a1, b2.trans a2, b3.trans a3, b4.trans a4, b5.trans a5, b6.trans a6,
    b7.trans a7, b8.trans a8⟩

theorem ptr_lt_irrefl (p : Option Nat) : ptr_lt p p = false := by
  simp [ptr_lt]

theorem sort_step_permutes (m : pool_mgr_t) (j n : Nat) (hjn : j + 2 ≤ n)
    (hlen : n ≤ m.gap_ix.length)
    (hvalid : ∀ g, g ∈ m.gap_ix.take n → node_valid m g = true) :
    ∃ m', sort_step m (j + 1) = Outcome.ok m' ∧ gap_ix_permuted n m m' := by
  have hj1 : j + 1 < m.gap_ix.length := by omega
  have hj0 : j < m.gap_ix.length := by omega
  have hcur : m.gap_ix[j + 1]? = some m.gap_ix[j + 1] := List.getElem?_eq_getElem hj1
  have hprev : m.gap_ix[j]? = some m.gap_ix[j] := List.getElem?_eq_getElem hj0
  have hswap : gap_ix_permuted n m (swap_gaps m (j + 1) m.gap_ix[j + 1] m.gap_ix[j]) := by
    obtain ⟨hp, hd⟩ := set_set_swap m.gap_ix j n _ _ hcur hprev hjn
    refine ⟨rfl, rfl, rfl, rfl, rfl, ?_, ?_, ?_⟩
    · simp [swap_gaps]
    · simpa [swap_gaps] using hp
    · simpa [swap_gaps] using hd
  simp only [sort_step, hcur, hprev]
  by_cases hlt : m.gap_ix[j + 1].size < m.gap_ix[j].size
  · simp only [hlt, if_true]
    exact ⟨_, rfl, hswap⟩
  · simp only [hlt, if_false]
    by_cases heq : m.gap_ix[j + 1].size = m.gap_ix[j].size
    · simp only [heq, if_true]
      have hmem : m.gap_ix[j + 1] ∈ m.gap_ix.take n := by
        rw [List.mem_iff_getElem?]
        refine ⟨j + 1, ?_⟩
        rw [List.getElem?_take_of_lt (by omega)]
        exact hcur
      have hv := hvalid _ hmem
      unfold node_valid at hv
      cases hnode : m.gap_ix[j + 1].node with
      | none => simp [hnode] at hv
      | some k =>
        simp only [hnode] at hv
        cases hk : m.node_heap[k]? with
        | none => simp [hk] at hv
        | some nd =>
          simp only [hnode, hk, ptr_lt_irrefl, Bool.false_eq_true, if_false]
          exact ⟨m, rfl, gap_ix_permuted_refl n m⟩
    · simp only [heq, if_false]
      exact ⟨m, rfl, gap_ix_permuted_refl n m⟩

theorem sort_pass_permutes (n : Nat) :
    ∀ (i : Nat) (m : pool_mgr_t), i + 1 ≤ n → n ≤ m.gap_ix.length →
      (∀ g, g ∈ m.gap_ix.take n → node_valid m g = true) →
      ∃ m', sort_pass m i = Outcome.ok m' ∧ gap_ix_permuted n m m' := by
  intro i
  induction i with
  | zero =>
    intro m _ _ _
    exact ⟨m, rfl, gap_ix_permuted_refl n m⟩
  | succ i ih =>
    intro m hi hlen hvalid
    obtain ⟨m1, hstep, hperm1⟩ := sort_step_permutes m i n (by omega) hlen hvalid
    have hlen1 : n ≤ m1.gap_ix.length := by rw [hperm1.2.2.2.2.2.1]; exact hlen
    have hvalid1 : ∀ g, g ∈ m1.gap_ix.take n → node_valid m1 g = true := by
      intro g hg
      have hg0 : g ∈ m.gap_ix.take n := (hperm1.2.2.2.2.2.2.1.mem_iff).mp hg
      have := hvalid g hg0
      unfold node_valid at this ⊢
      rw [hperm1.2.1]
      exact this
    obtain ⟨m2, hpass, hperm2⟩ := ih m1 (by omega) hlen1 hvalid1
    refine ⟨m2, ?_, gap_ix_permuted_trans n m m1 m2 hperm1 hperm2⟩
    simp only [sort_pass, hstep]
    exact hpass

theorem sort_pass_ascending (n : Nat) :
    ∀ (i : Nat) (m : pool_mgr_t), i + 1 ≤ n → n ≤ m.gap_ix.length →
      (m.gap_ix.take n).Pairwise (fun a b => a.size < b.size) →
      sort_pass m i = Outcome.ok m := by
  intro i
  induction i with
  | zero => intro m _ _ _; rfl
  | succ i ih =>
    intro m hi hlen hasc
    have hj1 : i + 1 < m.gap_ix.length := by omega
    have hj0 : i < m.gap_ix.length := by omega
    have hcur : m.gap_ix[i + 1]? = some m.gap_ix[i + 1] := List.getElem?_eq_getElem hj1
    have hprev : m.gap_ix[i]? = some m.gap_ix[i] := List.getElem?_eq_getElem hj0
    have hlt : m.gap_ix[i].size < m.gap_ix[i + 1].size := by
      rw [List.pairwise_iff_getElem] at hasc
      have hl : (m.gap_ix.take n).length = n := by
        rw [List.length_take]; omega
      have := hasc i (i + 1) (by omega) (by omega) (Nat.lt_succ_self i)
      simpa [List.getElem_take] using this
    have hstep : sort_step m (i + 1) = Outcome.ok m := by
      simp only [sort_step, hcur, hprev]
      have h1 : ¬ m.gap_ix[i + 1].size < m.gap_ix[i].size := by omega
      have h2 : ¬ m.gap_ix[i + 1].size = m.gap_ix[i].size := by omega
      simp only [h1, h2, if_false]
    simp only [sort_pass, hstep]
    exact ih m (by omega) hlen hasc

/-- C20 (the sort pass only permutes): for every manager with a well-formed gap index and
`num_gaps >= 2`, `_mem_sort_gap_ix` returns ALLOC_OK; the first `num_gaps` entries after
the call are a permutation of those before it (the same multiset); the entries at
indexes `>= num_gaps`, `num_gaps` itself and everything else in the manager are
unchanged; and when the first `num_gaps` entries are strictly ascending by size the
manager comes back exactly as it was. -/
theorem sort_gap_ix_permutes (m : pool_mgr_t) (h2 : 2 ≤ m.pool.num_gaps)
    (hwf : gap_ix_wf m) :
    ∃ m', _mem_sort_gap_ix m = Outcome.ok (alloc_status.ALLOC_OK, m') ∧
      (m'.gap_ix.take m.pool.num_gaps).Perm (m.gap_ix.take m.pool.num_gaps) ∧
      m'.gap_ix.drop m.pool.num_gaps = m.gap_ix.drop m.pool.num_gaps ∧
      m'.gap_ix.length = m.gap_ix.length ∧
      m'.pool.num_gaps = m.pool.num_gaps ∧
      m'.pool = m.pool ∧ m'.node_heap = m.node_heap ∧ m'.total_nodes = m.total_nodes ∧
      m'.used_nodes = m.used_nodes ∧ m'.gap_ix_capacity = m.gap_ix_capacity ∧
      (strictly_ascending m → m' = m) := by
  obtain ⟨hlen, hint, hvalid⟩ := hwf
  obtain ⟨m', hpass, hperm⟩ :=
    sort_pass_permutes m.pool.num_gaps (m.pool.num_gaps - 2) m (by omega) hlen hvalid
  have hguard : ¬ (m.pool.num_gaps < 2 ∨ 2 ^ 31 < m.pool.num_gaps) := by omega
  have hres : _mem_sort_gap_ix m = Outcome.ok (alloc_status.ALLOC_OK, m') := by
    simp only [_mem_sort_gap_ix, hguard, if_false, hpass]
  obtain ⟨p1, p2, p3, p4, p5, p6, p7, p8⟩ := hperm
  refine ⟨m', hres, p7, p8, p6, by rw [p1], p1, p2, p3, p4, p5, ?_⟩
  intro hasc
  have hsame := sort_pass_ascending m.pool.num_gaps (m.pool.num_gaps - 2) m (by omega) hlen hasc
  rw [hsame] at hpass
  simp only [Outcome.ok.injEq] at hpass
  exact hpass.symm

/-- Witness for C20: on the gap index with sizes [5, 1, 3] the pass exchanges the first
two entries and returns a permutation, and the gap index with sizes [1, 3, 5], strictly
ascending, comes back as it was. -/
theorem sort_gap_ix_permutes_witness :
    (∃ m', _mem_sort_gap_ix mgr_swap = Outcome.ok (alloc_status.ALLOC_OK, m') ∧
      (m'.gap_ix.take 3).Perm (mgr_swap.gap_ix.take 3) ∧
      m'.gap_ix.drop 3 = mgr_swap.gap_ix.drop 3 ∧ m'.pool.num_gaps = 3) ∧
    _mem_sort_gap_ix mgr_sorted = Outcome.ok (alloc_status.ALLOC_OK, mgr_sorted) := by
  constructor
  · obtain ⟨m', h1, h2, h3, _, h5, _⟩ :=
      sort_gap_ix_permutes mgr_swap (by decide) (by decide)
    exact ⟨m', h1, h2, h3, h5⟩
  · obtain ⟨m', h1, _, _, _, _, _, _, _, _, _, hasc⟩ :=
      sort_gap_ix_permutes mgr_sorted (by decide) (by decide)
    rw [hasc (by decide)] at h1
    exact h1

end MemPool
